import Mathlib

/-!
Verification of the consent state machine of `silktide-consent-manager.js`
(Silktide Consent Manager v2.0).

The development shallowly embeds the core of the source file: the
localStorage adapter (with its availability probe and its try/catch
swallowing of storage exceptions), the legacy-key migration layer
(`getConsentChoice` / `setConsentChoice`, `getHasConsented` /
`setHasConsented`), the batched diff-and-notify algorithm
(`batchUpdateConsents`) and the accept-all / reject-all entry point
(`handleConsentChoice`).

JavaScript-specific behaviour is modelled explicitly:
* `JSVal` distinguishes `undefined`, `null` and booleans, because
  `batchUpdateConsents` compares `consentStates[type.id]` (which is
  `undefined` for an omitted id) with `getConsentChoice` (which returns
  `null` or a boolean) using strict `!==`;
* JavaScript objects are association lists with assign-in-place update
  (`objSet`), mirroring insertion-order object semantics;
* `accepted.toString()` on `undefined`/`null` is a thrown TypeError,
  modelled with `Except`;
* raw `localStorage` operations may throw; the fault behaviour is an
  oracle carried in `RawStorage`, and the adapter catches every raw error.
-/

set_option autoImplicit false

namespace Stcm

/-- A JavaScript value as far as the consent logic observes it:
`undefined`, `null`, or a boolean. -/
inductive JSVal where
  | undef
  | null
  | bool (b : Bool)
deriving DecidableEq, Repr

/-- JavaScript truthiness of a `JSVal` (`undefined` and `null` are falsy). -/
def JSVal.truthy : JSVal → Bool
  | .undef => false
  | .null => false
  | .bool b => b

/-- `value.toString()` in JavaScript: defined for booleans, a thrown
TypeError for `undefined` and `null`. -/
def JSVal.jsToString : JSVal → Except Unit String
  | .undef => .error ()
  | .null => .error ()
  | .bool b => .ok (if b then "true" else "false")

/-- Read a key of a JavaScript object / of the string store
(first matching entry). -/
def objGet {α : Type} (k : String) : List (String × α) → Option α
  | [] => none
  | p :: rest => if p.1 = k then some p.2 else objGet k rest

/-- `obj[k] = v`: update the entry in place if the key exists,
append it otherwise (JavaScript object insertion-order semantics;
also the semantics of `localStorage.setItem`). -/
def objSet {α : Type} (k : String) (v : α) : List (String × α) → List (String × α)
  | [] => [(k, v)]
  | p :: rest => if p.1 = k then (k, v) :: rest else p :: objSet k v rest

/-- `localStorage.removeItem` / `delete obj[k]`. -/
def objRemove {α : Type} (k : String) : List (String × α) → List (String × α)
  | [] => []
  | p :: rest => if p.1 = k then objRemove k rest else p :: objRemove k rest

/-- The raw browser `localStorage`: its contents, plus a fault oracle
saying which raw operations throw (quota errors, security errors, ...). -/
structure RawStorage where
  data : List (String × String)
  getThrows : String → Bool
  setThrows : String → String → Bool
  removeThrows : String → Bool

/-- Raw `localStorage.getItem`: may throw per the fault oracle. -/
def rawGetItem (s : RawStorage) (k : String) : Except Unit (Option String) :=
  if s.getThrows k then .error () else .ok (objGet k s.data)

/-- Raw `localStorage.setItem`: may throw per the fault oracle. -/
def rawSetItem (s : RawStorage) (k v : String) : Except Unit RawStorage :=
  if s.setThrows k v then .error () else .ok { s with data := objSet k v s.data }

/-- Raw `localStorage.removeItem`: may throw per the fault oracle. -/
def rawRemoveItem (s : RawStorage) (k : String) : Except Unit RawStorage :=
  if s.removeThrows k then .error () else .ok { s with data := objRemove k s.data }

/-- Observable side effects of the consent manager other than storage
contents: console warnings, gtag calls, Silktide-analytics fallback calls,
dataLayer pushes, callback invocations, script injections, scheduled
reloads, and the raw log of successful storage writes/removals. -/
structure Effects where
  warnings : Nat := 0
  storageSets : List (String × String) := []
  storageRemoves : List String := []
  gtagCalls : List (List (String × String)) := []
  silktideCalls : List Bool := []
  dataLayerPushes : List String := []
  acceptCallbacks : List String := []
  rejectCallbacks : List String := []
  injectedScripts : List (String × String) := []
  reloadsScheduled : Nat := 0
deriving DecidableEq, Repr

/-- Mutable world state threaded through the embedding: raw storage,
the set of script `src` urls already present in the document, and the
effect log. -/
structure St where
  raw : RawStorage
  docScripts : List String
  eff : Effects

/-- A gated script descriptor (`{url, load, type, crossorigin, integrity}`). -/
structure ScriptConfig where
  url : Option String
  load : Option String
  type : Option String
  crossorigin : Option String
  integrity : Option String
deriving DecidableEq, Repr

/-- The `gtag` field of a consent type: absent/falsy, a single string,
or an array of strings (`Array.isArray` distinguishes the two). -/
inductive GtagVal where
  | absent
  | str (s : String)
  | arr (l : List String)
deriving DecidableEq, Repr

/-- JavaScript truthiness of the `gtag` field (`if (!consentType.gtag)`):
absent and the empty string are falsy, arrays are always truthy. -/
def GtagVal.truthy : GtagVal → Bool
  | .absent => false
  | .str s => s ≠ ""
  | .arr _ => true

/-- `Array.isArray(type.gtag) ? type.gtag : [type.gtag]`. -/
def GtagVal.params : GtagVal → List String
  | .absent => []
  | .str s => [s]
  | .arr l => l

/-- One entry of `config.consentTypes`. Callbacks are opaque to the model:
only their presence (`typeof fn === 'function'`) matters, their invocation
is recorded in `Effects`. -/
structure ConsentType where
  id : String
  required : Bool
  defaultValue : Bool
  scripts : Option (List ScriptConfig)
  gtag : GtagVal
  onAccept : Bool
  onReject : Bool
deriving DecidableEq, Repr

/-- The configuration/environment of one manager instance.  `nsp` is
`config.namespace` (empty string when absent, matching JS falsiness);
`localStorageAvailable` is the result of the constructor's probe;
`gtagDefined` is `typeof gtag === 'function'`; `silktideDefined` is
`typeof window.silktide === 'function'`. -/
structure Env where
  nsp : String
  consentTypes : List ConsentType
  eventName : String
  debug : Bool
  gtagDefined : Bool
  silktideDefined : Bool
  localStorageAvailable : Bool
  onAcceptAll : Bool
  onRejectAll : Bool

/-- `_validateConfig`: the constructor throws when `config.consentTypes`
is missing or empty (only emptiness is expressible in the typed model). -/
def _validateConfig (consentTypes : List ConsentType) : Except String Unit :=
  if consentTypes.length = 0 then
    .error "Silktide Consent Manager: config.consentTypes cannot be empty"
  else .ok ()

/-- The throwaway probe key used by `_checkLocalStorageAvailable`. -/
def testKey : String := "__stcm_test__"

/-- Increment the warning counter (a `console.warn` call). -/
def warnEff (st : St) : St :=
  { st with eff := { st.eff with warnings := st.eff.warnings + 1 } }

/-- `_checkLocalStorageAvailable`: try a throwaway write then delete;
any throw is caught, warned about, and reported as unavailability. -/
def _checkLocalStorageAvailable (st : St) : St × Bool :=
  match rawSetItem st.raw testKey "1" with
  | .error _ => (warnEff st, false)
  | .ok raw1 =>
    match rawRemoveItem raw1 testKey with
    | .error _ => (warnEff { st with raw := raw1 }, false)
    | .ok raw2 => ({ st with raw := raw2 }, true)

/-- `_getLocalStorageItem`: `null` when storage is unavailable; otherwise
read, catching a thrown error as a warning plus `null`. -/
def _getLocalStorageItem (env : Env) (st : St) (key : String) : St × Option String :=
  if env.localStorageAvailable = false then (st, none)
  else
    match rawGetItem st.raw key with
    | .error _ => (warnEff st, none)
    | .ok v => (st, v)

/-- `_setLocalStorageItem`: no-op returning `false` when storage is
unavailable; otherwise write, catching a thrown error as a warning plus
`false`.  A successful write is recorded in the effect log. -/
def _setLocalStorageItem (env : Env) (st : St) (key value : String) : St × Bool :=
  if env.localStorageAvailable = false then (st, false)
  else
    match rawSetItem st.raw key value with
    | .error _ => (warnEff st, false)
    | .ok raw1 =>
      ({ st with raw := raw1,
                 eff := { st.eff with storageSets := st.eff.storageSets ++ [(key, value)] } },
       true)

/-- `_removeLocalStorageItem`: no-op returning `false` when storage is
unavailable; otherwise remove, catching a thrown error as a warning plus
`false`.  A successful removal is recorded in the effect log. -/
def _removeLocalStorageItem (env : Env) (st : St) (key : String) : St × Bool :=
  if env.localStorageAvailable = false then (st, false)
  else
    match rawRemoveItem st.raw key with
    | .error _ => (warnEff st, false)
    | .ok raw1 =>
      ({ st with raw := raw1,
                 eff := { st.eff with storageRemoves := st.eff.storageRemoves ++ [key] } },
       true)

/-- `_buildOldConsentKey`: `silktideCookieChoice_<typeId>[_<namespace>]`. -/
def _buildOldConsentKey (env : Env) (typeId : String) : String :=
  "silktideCookieChoice_" ++ typeId ++ (if env.nsp ≠ "" then "_" ++ env.nsp else "")

/-- `_buildOldHasConsentedKey`: `silktideCookieBanner_InitialChoice[_<namespace>]`. -/
def _buildOldHasConsentedKey (env : Env) : String :=
  "silktideCookieBanner_InitialChoice" ++ (if env.nsp ≠ "" then "_" ++ env.nsp else "")

/-- `_buildConsentKey`: `stcm.<namespace.?>consent.<typeId>`. -/
def _buildConsentKey (env : Env) (typeId : String) : String :=
  "stcm." ++ (if env.nsp ≠ "" then env.nsp ++ "." else "") ++ "consent." ++ typeId

/-- `_buildHasConsentedKey`: `stcm.<namespace.?>hasConsented`. -/
def _buildHasConsentedKey (env : Env) : String :=
  "stcm." ++ (if env.nsp ≠ "" then env.nsp ++ "." else "") ++ "hasConsented"

/-- `getConsentChoice`: read the current-family key; if absent, read the
legacy-family key and, if present, migrate it (write current, delete
legacy).  Returns `null` when neither key holds a value, otherwise the
boolean `value === 'true'`. -/
def getConsentChoice (env : Env) (st : St) (typeId : String) : St × Option Bool :=
  let r1 := _getLocalStorageItem env st (_buildConsentKey env typeId)
  match r1.2 with
  | some v => (r1.1, some (v == "true"))
  | none =>
    let r2 := _getLocalStorageItem env r1.1 (_buildOldConsentKey env typeId)
    match r2.2 with
    | none => (r2.1, none)
    | some v =>
      let r3 := _setLocalStorageItem env r2.1 (_buildConsentKey env typeId) v
      let r4 := _removeLocalStorageItem env r3.1 (_buildOldConsentKey env typeId)
      (r4.1, some (v == "true"))

/-- `setConsentChoice(typeId, accepted)`: writes
`accepted.toString()` under the current-family key, then opportunistically
deletes a still-present legacy-family key.  `accepted.toString()` throws a
TypeError when `accepted` is `undefined` or `null` (which
`batchUpdateConsents` can pass when the requested map omits an id). -/
def setConsentChoice (env : Env) (st : St) (typeId : String) (accepted : JSVal) :
    St × Except Unit Unit :=
  match accepted.jsToString with
  | .error _ => (st, .error ())
  | .ok s =>
    let r1 := _setLocalStorageItem env st (_buildConsentKey env typeId) s
    let r2 := _getLocalStorageItem env r1.1 (_buildOldConsentKey env typeId)
    match r2.2 with
    | some _ =>
      let r3 := _removeLocalStorageItem env r2.1 (_buildOldConsentKey env typeId)
      (r3.1, .ok ())
    | none => (r2.1, .ok ())

/-- `getHasConsented`: presence test (`value !== null`) on the
current-family has-consented key, with the same one-shot legacy
migration as `getConsentChoice`.  The stored content is never inspected. -/
def getHasConsented (env : Env) (st : St) : St × Bool :=
  let r1 := _getLocalStorageItem env st (_buildHasConsentedKey env)
  match r1.2 with
  | some _ => (r1.1, true)
  | none =>
    let r2 := _getLocalStorageItem env r1.1 (_buildOldHasConsentedKey env)
    match r2.2 with
    | none => (r2.1, false)
    | some v =>
      let r3 := _setLocalStorageItem env r2.1 (_buildHasConsentedKey env) v
      let r4 := _removeLocalStorageItem env r3.1 (_buildOldHasConsentedKey env)
      (r4.1, true)

/-- `setHasConsented`: writes the literal `"1"` under the current-family
has-consented key, then cleans up a still-present legacy key. -/
def setHasConsented (env : Env) (st : St) : St :=
  let r1 := _setLocalStorageItem env st (_buildHasConsentedKey env) "1"
  let r2 := _getLocalStorageItem env r1.1 (_buildOldHasConsentedKey env)
  match r2.2 with
  | some _ =>
    let r3 := _removeLocalStorageItem env r2.1 (_buildOldHasConsentedKey env)
    r3.1
  | none => r2.1

/-- `_injectScript`: warn and skip on a missing/empty url; skip when a
script with that exact `src` already exists in the document; otherwise
append the script element (recorded with the owning consent id). -/
def _injectScript (st : St) (sc : ScriptConfig) (consentId : String) : St :=
  match sc.url with
  | none => warnEff st
  | some url =>
    if url = "" then warnEff st
    else if st.docScripts.contains url then st
    else
      { st with docScripts := st.docScripts ++ [url],
                eff := { st.eff with
                          injectedScripts := st.eff.injectedScripts ++ [(consentId, url)] } }

/-- `_injectConsentScripts`: inject every script of the consent type
(no-op when `scripts` is absent). -/
def _injectConsentScripts (st : St) (t : ConsentType) : St :=
  match t.scripts with
  | none => st
  | some scripts => scripts.foldl (fun s sc => _injectScript s sc t.id) st

/-- The requested-state map passed to `batchUpdateConsents`:
`none` models an omitted id (JavaScript `undefined`). -/
def ReqMap : Type := String → Option Bool

/-- `consentStates[type.id]` as a JavaScript value. -/
def reqJS (m : ReqMap) (id : String) : JSVal :=
  match m id with
  | none => .undef
  | some b => .bool b

/-- The `null`-or-boolean result of `getConsentChoice` as a JavaScript
value, for the strict comparison `newState !== previousState`. -/
def prevJS : Option Bool → JSVal
  | none => .null
  | some b => .bool b

/-- One entry of the `changes` array accumulated by the first pass of
`batchUpdateConsents`. -/
structure Change where
  type : ConsentType
  newState : JSVal
  previousState : Option Bool
deriving Repr

/-- Accumulator of the first pass of `batchUpdateConsents`. -/
structure BatchAcc where
  st : St
  changes : List Change
  gtagUpdate : List (String × String)
  hasChanges : Bool
  needsReload : Bool

/-- `type.scripts?.length > 0`. -/
def hadScriptsB (t : ConsentType) : Bool :=
  match t.scripts with
  | none => false
  | some l => decide (l.length > 0)

/-- One iteration of the first pass of `batchUpdateConsents`: compare the
requested state against the stored choice; on a difference record the
change, track revoke-with-scripts for the reload flag, and fold the
consent type's gtag params into the consolidated payload. -/
def batchStep (env : Env) (m : ReqMap) (acc : BatchAcc) (t : ConsentType) : BatchAcc :=
  let newState := reqJS m t.id
  let r := getConsentChoice env acc.st t.id
  let previousState := r.2
  if newState ≠ prevJS previousState then
    let wasRevoked := previousState == some true && newState == JSVal.bool false
    let needsReload := acc.needsReload || (wasRevoked && hadScriptsB t)
    let gtagUpdate :=
      if t.gtag.truthy then
        let consentState := if newState.truthy then "granted" else "denied"
        t.gtag.params.foldl (fun o p => objSet p consentState o) acc.gtagUpdate
      else acc.gtagUpdate
    { st := r.1,
      changes := acc.changes ++ [⟨t, newState, previousState⟩],
      gtagUpdate := gtagUpdate,
      hasChanges := true,
      needsReload := needsReload }
  else
    { acc with st := r.1 }

/-- The whole first pass of `batchUpdateConsents`. -/
def batchFirstPass (env : Env) (st : St) (m : ReqMap) : BatchAcc :=
  env.consentTypes.foldl (batchStep env m) ⟨st, [], [], false, false⟩

/-- Second pass of `batchUpdateConsents`: persist every change via
`setConsentChoice`; a TypeError thrown there (undefined new state)
aborts the whole batch. -/
def batchPersist (env : Env) (st : St) : List Change → St × Except Unit Unit
  | [] => (st, .ok ())
  | c :: rest =>
    let r := setConsentChoice env st c.type.id c.newState
    match r.2 with
    | .error _ => (r.1, .error ())
    | .ok _ => batchPersist env r.1 rest

/-- Truthiness of `obj.analytics_storage` (a string value; `""` is falsy). -/
def jsStrTruthy : Option String → Bool
  | none => false
  | some s => s ≠ ""

/-- Integration delivery of `batchUpdateConsents`: one `gtag` call with
the whole consolidated payload when the payload is non-empty and `gtag`
exists; otherwise the Silktide-analytics fallback when the payload has a
truthy `analytics_storage` entry. -/
def batchIntegration (env : Env) (st : St) (gtagUpdate : List (String × String)) : St :=
  if decide (gtagUpdate.length > 0) && env.gtagDefined then
    { st with eff := { st.eff with gtagCalls := st.eff.gtagCalls ++ [gtagUpdate] } }
  else if jsStrTruthy (objGet "analytics_storage" gtagUpdate) then
    if env.silktideDefined then
      let analyticsGranted := objGet "analytics_storage" gtagUpdate == some "granted"
      { st with eff := { st.eff with silktideCalls := st.eff.silktideCalls ++ [analyticsGranted] } }
    else st
  else st

/-- `window.dataLayer.push({event: this.config.eventName})`. -/
def pushEvent (env : Env) (st : St) : St :=
  { st with eff := { st.eff with dataLayerPushes := st.eff.dataLayerPushes ++ [env.eventName] } }

/-- Third pass of `batchUpdateConsents`: for each change, inject scripts
and run `onAccept` when the new state is truthy, else run `onReject`. -/
def batchCallbacks (st : St) (changes : List Change) : St :=
  changes.foldl
    (fun s c =>
      if c.newState.truthy then
        let s1 := _injectConsentScripts s c.type
        if c.type.onAccept then
          { s1 with eff := { s1.eff with
                              acceptCallbacks := s1.eff.acceptCallbacks ++ [c.type.id] } }
        else s1
      else
        if c.type.onReject then
          { s with eff := { s.eff with
                             rejectCallbacks := s.eff.rejectCallbacks ++ [c.type.id] } }
        else s)
    st

/-- `setTimeout(() => window.location.reload(), 100)`. -/
def scheduleReload (st : St) : St :=
  { st with eff := { st.eff with reloadsScheduled := st.eff.reloadsScheduled + 1 } }

/-- `batchUpdateConsents`: diff every configured consent type against the
stored choice; return `false` (no side effects past the reads) when
nothing changed; otherwise persist, deliver one consolidated integration
call, push one dataLayer event, run callbacks/script injection, and
schedule a deferred reload when a script-bearing consent was revoked.
The `Except` result carries a JavaScript TypeError escaping the method
(thrown by `accepted.toString()` for an omitted id). -/
def batchUpdateConsents (env : Env) (st : St) (m : ReqMap) : St × Except Unit Bool :=
  let acc := batchFirstPass env st m
  if acc.hasChanges = false then (acc.st, .ok false)
  else
    let p := batchPersist env acc.st acc.changes
    match p.2 with
    | .error _ => (p.1, .error ())
    | .ok _ =>
      let st2 := batchIntegration env p.1 acc.gtagUpdate
      let st3 := pushEvent env st2
      let st4 := batchCallbacks st3 acc.changes
      let st5 := if acc.needsReload then scheduleReload st4 else st4
      (st5, .ok true)

/-- The requested-state object built inside `handleConsentChoice`:
`consentStates[type.id] = type.required ? true : accepted`. -/
def handleConsentStatesObj (env : Env) (accepted : Bool) : List (String × Bool) :=
  env.consentTypes.foldl (fun o t => objSet t.id (if t.required then true else accepted) o) []

/-- `handleConsentChoice(accepted)` (accept-all / reject-all): mark
has-consented, build the full requested-state map (required consent
types forced `true`), run the batch update, then fire the top-level
`onAcceptAll`/`onRejectAll` callback.  Pure UI work (banner/backdrop/
modal/icon handling and the trailing checkbox refresh) is presentation
and outside the model. -/
def handleConsentChoice (env : Env) (st : St) (accepted : Bool) : St × Except Unit Unit :=
  let st1 := setHasConsented env st
  let consentStates := handleConsentStatesObj env accepted
  let r := batchUpdateConsents env st1 (fun id => objGet id consentStates)
  match r.2 with
  | .error _ => (r.1, .error ())
  | .ok _ =>
    if accepted && env.onAcceptAll then
      ({ r.1 with eff := { r.1.eff with
                            acceptCallbacks := r.1.eff.acceptCallbacks ++ ["__onAcceptAll"] } },
       .ok ())
    else if !accepted && env.onRejectAll then
      ({ r.1 with eff := { r.1.eff with
                            rejectCallbacks := r.1.eff.rejectCallbacks ++ ["__onRejectAll"] } },
       .ok ())
    else (r.1, .ok ())

/-- `getAcceptedConsents`: reduce over the consent types, assigning each
id the raw result of `getConsentChoice` (so `null` for an unset choice,
not a boolean). -/
def getAcceptedConsents (env : Env) (st : St) : St × List (String × Option Bool) :=
  env.consentTypes.foldl
    (fun (p : St × List (String × Option Bool)) t =>
      let r := getConsentChoice env p.1 t.id
      (r.1, objSet t.id r.2 p.2))
    (st, [])

/-- `getRejectedConsents`: reduce over the consent types, assigning each
id the boolean `choice === false`. -/
def getRejectedConsents (env : Env) (st : St) : St × List (String × Bool) :=
  env.consentTypes.foldl
    (fun (p : St × List (String × Bool)) t =>
      let r := getConsentChoice env p.1 t.id
      (r.1, objSet t.id (r.2 == some false) p.2))
    (st, [])

/-! ### Derived definitions used to state and prove properties

These do not embed further source code; each is a proof-layer
reformulation whose agreement with the embedded code is proved below. -/

/-- The fault oracle never fires: raw storage operations all succeed. -/
def NoThrows (s : RawStorage) : Prop :=
  (∀ k, s.getThrows k = false) ∧ (∀ k v, s.setThrows k v = false) ∧
    (∀ k, s.removeThrows k = false)

/-- The state after a successful adapter write. -/
def writeS (st : St) (k v : String) : St :=
  { st with raw := { st.raw with data := objSet k v st.raw.data },
            eff := { st.eff with storageSets := st.eff.storageSets ++ [(k, v)] } }

/-- The state after a successful adapter removal. -/
def eraseS (st : St) (k : String) : St :=
  { st with raw := { st.raw with data := objRemove k st.raw.data },
            eff := { st.eff with storageRemoves := st.eff.storageRemoves ++ [k] } }

/-- The stored consent choice as read from the current-family key only
(the value `getConsentChoice` yields once no legacy key is present). -/
def storedChoice (env : Env) (data : List (String × String)) (id : String) : Option Bool :=
  (objGet (_buildConsentKey env id) data).map (fun v => v == "true")

/-- The §4.4 "changed" test of `batchUpdateConsents` as a pure function
of a storage snapshot: `consentStates[type.id] !== previousState`. -/
def changedCatB (env : Env) (data : List (String × String)) (m : ReqMap)
    (t : ConsentType) : Bool :=
  reqJS m t.id != prevJS (storedChoice env data t.id)

/-- `previousState === true && newState === false` as a pure function. -/
def revokedCatB (env : Env) (data : List (String × String)) (m : ReqMap)
    (t : ConsentType) : Bool :=
  (storedChoice env data t.id == some true) && (reqJS m t.id == JSVal.bool false)

/-- The change record the first pass builds for a changed consent type,
as a pure function of a storage snapshot. -/
def mkChange (env : Env) (data : List (String × String)) (m : ReqMap)
    (t : ConsentType) : Change :=
  ⟨t, reqJS m t.id, storedChoice env data t.id⟩

/-- `batchStep` over a fixed storage snapshot: the same accumulator
logic, with the stored choice read purely and the state left untouched.
`foldl_batchStep_eq_pureStep` proves it coincides with `batchStep` when
storage is healthy and no legacy keys remain. -/
def pureStep (env : Env) (data : List (String × String)) (m : ReqMap)
    (acc : BatchAcc) (t : ConsentType) : BatchAcc :=
  let newState := reqJS m t.id
  let previousState := storedChoice env data t.id
  if newState ≠ prevJS previousState then
    let wasRevoked := previousState == some true && newState == JSVal.bool false
    let needsReload := acc.needsReload || (wasRevoked && hadScriptsB t)
    let gtagUpdate :=
      if t.gtag.truthy then
        let consentState := if newState.truthy then "granted" else "denied"
        t.gtag.params.foldl (fun o p => objSet p consentState o) acc.gtagUpdate
      else acc.gtagUpdate
    { acc with changes := acc.changes ++ [⟨t, newState, previousState⟩],
               gtagUpdate := gtagUpdate, hasChanges := true, needsReload := needsReload }
  else acc

/-- The string `accepted.toString()` produces for a boolean. -/
def jsvalStr : JSVal → String
  | .bool b => if b then "true" else "false"
  | _ => ""

/-- Agreement of two states on the externally visible notification
effects: gtag calls, dataLayer pushes and scheduled reloads.  Storage
phases of the batch preserve these. -/
def Ext (a b : St) : Prop :=
  a.eff.gtagCalls = b.eff.gtagCalls ∧
  a.eff.dataLayerPushes = b.eff.dataLayerPushes ∧
  a.eff.reloadsScheduled = b.eff.reloadsScheduled

/-- The state `batchUpdateConsents` ends in when at least one change was
detected and persistence did not throw (proved as `batch_success_eq`). -/
def batchSuccessState (env : Env) (st : St) (m : ReqMap) : St :=
  let acc := batchFirstPass env st m
  let p1 := (batchPersist env acc.st acc.changes).1
  let st2 := batchIntegration env p1 acc.gtagUpdate
  let st3 := pushEvent env st2
  let st4 := batchCallbacks st3 acc.changes
  if acc.needsReload then scheduleReload st4 else st4

/-! ### Concrete fixtures for counterexamples and witnesses -/

/-- Raw storage with the given contents and a fault oracle that never fires. -/
def mkRaw (d : List (String × String)) : RawStorage :=
  ⟨d, fun _ => false, fun _ _ => false, fun _ => false⟩

/-- A fresh world state over the given storage contents. -/
def mkSt (d : List (String × String)) : St := ⟨mkRaw d, [], {}⟩

/-- A configuration with no namespace, default event name, available
storage, and the given consent types / gtag availability. -/
def mkEnv (ts : List ConsentType) (gtagOn : Bool) : Env :=
  ⟨"", ts, "stcm_consent_update", false, gtagOn, false, true, false, false⟩

/-- A consent type with no scripts, no signals, no callbacks. -/
def catPlain : ConsentType := ⟨"a", false, false, none, .absent, false, false⟩

/-- A consent type gating one script. -/
def catScripted : ConsentType :=
  ⟨"a", false, false, some [⟨some "https://example.com/s.js", none, none, none, none⟩],
   .absent, false, false⟩

/-- Consent type `a` with signal identifier `x`. -/
def catSigA : ConsentType := ⟨"a", false, false, none, .arr ["x"], false, false⟩

/-- Consent type `b` with the same signal identifier `x` (shared). -/
def catSigB : ConsentType := ⟨"b", false, false, none, .arr ["x"], false, false⟩

/-- Consent type `b` with its own signal identifier `y`. -/
def catSigY : ConsentType := ⟨"b", false, false, none, .arr ["y"], false, false⟩

/-- A required consent type. -/
def catReq : ConsentType := ⟨"req", true, false, none, .absent, false, false⟩

/-! ### Association-list lemmas -/

theorem objGet_objSet_self {α : Type} (k : String) (v : α) (l : List (String × α)) :
    objGet k (objSet k v l) = some v := by
  induction l with
  | nil => simp [objGet, objSet]
  | cons p rest ih =>
    by_cases h : p.1 = k
    · simp [objGet, objSet, h]
    · simp [objGet, objSet, h, ih]

theorem objGet_objSet_ne {α : Type} {k k' : String} (h : k ≠ k') (v : α)
    (l : List (String × α)) : objGet k (objSet k' v l) = objGet k l := by
  have h' : ¬(k' = k) := fun hh => h hh.symm
  induction l with
  | nil => simp [objGet, objSet, h']
  | cons p rest ih =>
    by_cases hp : p.1 = k'
    · have hpk : ¬(p.1 = k) := by rw [hp]; exact h'
      simp [objGet, objSet, hp, h', hpk]
    · by_cases hk : p.1 = k <;> simp [objGet, objSet, hp, hk, h, h', ih]

theorem objGet_objRemove_self {α : Type} (k : String) (l : List (String × α)) :
    objGet k (objRemove k l) = none := by
  induction l with
  | nil => rfl
  | cons p rest ih =>
    by_cases hp : p.1 = k
    · simpa [objRemove, hp] using ih
    · simpa [objRemove, objGet, hp] using ih

theorem objGet_objRemove_ne {α : Type} {k k' : String} (h : k ≠ k')
    (l : List (String × α)) : objGet k (objRemove k' l) = objGet k l := by
  have h' : ¬(k' = k) := fun hh => h hh.symm
  induction l with
  | nil => rfl
  | cons p rest ih =>
    by_cases hp : p.1 = k'
    · have hpk : ¬(p.1 = k) := by rw [hp]; exact fun hh => h hh.symm
      simpa [objRemove, objGet, hp, hpk, h'] using ih
    · by_cases hk : p.1 = k <;> simp [objRemove, objGet, hp, hk, h, h', ih]

/-- Writing a whole parameter list with one value
(`gtagParams.forEach(param => { obj[param] = consentState })`). -/
theorem objGet_writeAll (params : List String) (v : String)
    (obj : List (String × String)) (p : String) :
    objGet p (params.foldl (fun o q => objSet q v o) obj) =
      if p ∈ params then some v else objGet p obj := by
  induction params generalizing obj with
  | nil => simp
  | cons q rest ih =>
    simp only [List.foldl_cons, ih]
    by_cases hq : p = q
    · subst hq
      by_cases hr : p ∈ rest <;> simp [hr, objGet_objSet_self]
    · by_cases hr : p ∈ rest <;> simp [hr, hq, objGet_objSet_ne hq]

/-- Folding distinct-key writes: a key not written is preserved. -/
theorem objGet_foldl_objSet_notMem {α : Type} (ws : List (String × α))
    (data : List (String × α)) (k : String) (h : ∀ p ∈ ws, p.1 ≠ k) :
    objGet k (ws.foldl (fun d p => objSet p.1 p.2 d) data) = objGet k data := by
  induction ws generalizing data with
  | nil => rfl
  | cons w rest ih =>
    have hw : w.1 ≠ k := h w (by simp)
    rw [List.foldl_cons, ih _ (fun p hp => h p (by simp [hp]))]
    exact objGet_objSet_ne (fun hh => hw hh.symm) _ _

/-- Folding distinct-key writes: a written key holds its written value. -/
theorem objGet_foldl_objSet_mem {α : Type} (ws : List (String × α)) :
    ∀ (data : List (String × α)) (k : String) (v : α),
      (ws.map Prod.fst).Nodup → (k, v) ∈ ws →
      objGet k (ws.foldl (fun d p => objSet p.1 p.2 d) data) = some v := by
  induction ws with
  | nil =>
    intro data k v _ hmem
    simp at hmem
  | cons w rest ih =>
    intro data k v hnd hmem
    rw [List.foldl_cons]
    rcases List.mem_cons.mp hmem with h | h
    · subst h
      have hk : k ∉ rest.map Prod.fst := by
        simp only [List.map_cons, List.nodup_cons] at hnd
        exact hnd.1
      rw [objGet_foldl_objSet_notMem _ _ _
            (fun p hp hpk => hk (List.mem_map.mpr ⟨p, hp, hpk⟩))]
      exact objGet_objSet_self _ _ _
    · have hnd' : (rest.map Prod.fst).Nodup := by
        simp only [List.map_cons, List.nodup_cons] at hnd
        exact hnd.2
      exact ih _ k v hnd' h

/-! ### Key-shape lemmas -/

theorem string_data_inj {a b : String} (h : a.data = b.data) : a = b := by
  cases a; cases b; simp_all

/-- The current consent-key family never collides with the legacy
consent-key family (they differ in their second character). -/
theorem consentKey_ne_oldConsentKey (env : Env) (a b : String) :
    _buildConsentKey env a ≠ _buildOldConsentKey env b := by
  intro h
  have hL : ∀ t u w : List Char, ((("stcm.".data ++ t) ++ u) ++ w).get? 1 = some 't' :=
    fun _ _ _ => rfl
  have hR : ∀ t u : List Char, (("silktideCookieChoice_".data ++ t) ++ u).get? 1 = some 'i' :=
    fun _ _ => rfl
  have h2 := congrArg (fun s => s.data.get? 1) h
  simp only [_buildConsentKey, _buildOldConsentKey, String.data_append] at h2
  rw [hL, hR] at h2
  simp at h2

/-- The current has-consented key never collides with the legacy one. -/
theorem hasConsentedKey_ne_old (env : Env) :
    _buildHasConsentedKey env ≠ _buildOldHasConsentedKey env := by
  intro h
  have hL : ∀ t u : List Char, (("stcm.".data ++ t) ++ u).get? 1 = some 't' :=
    fun _ _ => rfl
  have hR : ∀ t : List Char, ("silktideCookieBanner_InitialChoice".data ++ t).get? 1 = some 'i' :=
    fun _ => rfl
  have h2 := congrArg (fun s => s.data.get? 1) h
  simp only [_buildHasConsentedKey, _buildOldHasConsentedKey, String.data_append] at h2
  rw [hL, hR] at h2
  simp at h2

/-- The current consent-key builder is injective in the type id. -/
theorem consentKey_inj (env : Env) {a b : String}
    (h : _buildConsentKey env a = _buildConsentKey env b) : a = b := by
  simp only [_buildConsentKey] at h
  have h2 := congrArg String.data h
  simp only [String.data_append] at h2
  exact string_data_inj (List.append_cancel_left h2)

/-! ### Adapter characterization under healthy storage -/

theorem noThrows_writeS {st : St} (h : NoThrows st.raw) (k v : String) :
    NoThrows (writeS st k v).raw := h

theorem noThrows_eraseS {st : St} (h : NoThrows st.raw) (k : String) :
    NoThrows (eraseS st k).raw := h

theorem lsGet_healthy (env : Env) (st : St) (k : String)
    (hA : env.localStorageAvailable = true) (hT : NoThrows st.raw) :
    _getLocalStorageItem env st k = (st, objGet k st.raw.data) := by
  simp [_getLocalStorageItem, hA, rawGetItem, hT.1 k]

theorem lsSet_healthy (env : Env) (st : St) (k v : String)
    (hA : env.localStorageAvailable = true) (hT : NoThrows st.raw) :
    _setLocalStorageItem env st k v = (writeS st k v, true) := by
  simp [_setLocalStorageItem, hA, rawSetItem, hT.2.1 k v, writeS]

theorem lsRemove_healthy (env : Env) (st : St) (k : String)
    (hA : env.localStorageAvailable = true) (hT : NoThrows st.raw) :
    _removeLocalStorageItem env st k = (eraseS st k, true) := by
  simp [_removeLocalStorageItem, hA, rawRemoveItem, hT.2.2 k, eraseS]

/-! ### `getConsentChoice` / `setConsentChoice` characterization -/

theorem getConsentChoice_healthy_fast (env : Env) (st : St) (id v : String)
    (hA : env.localStorageAvailable = true) (hT : NoThrows st.raw)
    (hnew : objGet (_buildConsentKey env id) st.raw.data = some v) :
    getConsentChoice env st id = (st, some (v == "true")) := by
  simp [getConsentChoice, lsGet_healthy env st _ hA hT, hnew]

theorem getConsentChoice_healthy_migrate (env : Env) (st : St) (id v : String)
    (hA : env.localStorageAvailable = true) (hT : NoThrows st.raw)
    (hnew : objGet (_buildConsentKey env id) st.raw.data = none)
    (hold : objGet (_buildOldConsentKey env id) st.raw.data = some v) :
    getConsentChoice env st id =
      (eraseS (writeS st (_buildConsentKey env id) v) (_buildOldConsentKey env id),
       some (v == "true")) := by
  simp [getConsentChoice, lsGet_healthy env st _ hA hT, hnew, hold,
        lsSet_healthy env st _ _ hA hT,
        lsRemove_healthy env (writeS st (_buildConsentKey env id) v) _ hA
          (noThrows_writeS hT _ _)]

theorem getConsentChoice_healthy_noLegacy (env : Env) (st : St) (id : String)
    (hA : env.localStorageAvailable = true) (hT : NoThrows st.raw)
    (hold : objGet (_buildOldConsentKey env id) st.raw.data = none) :
    getConsentChoice env st id = (st, storedChoice env st.raw.data id) := by
  cases hnew : objGet (_buildConsentKey env id) st.raw.data with
  | none =>
    simp [getConsentChoice, lsGet_healthy env st _ hA hT, hnew, hold, storedChoice]
  | some v =>
    simp [getConsentChoice, lsGet_healthy env st _ hA hT, hnew, storedChoice]

theorem setConsentChoice_healthy_bool (env : Env) (st : St) (id : String) (b : Bool)
    (hA : env.localStorageAvailable = true) (hT : NoThrows st.raw)
    (hold : objGet (_buildOldConsentKey env id) st.raw.data = none) :
    setConsentChoice env st id (.bool b) =
      (writeS st (_buildConsentKey env id) (if b then "true" else "false"), .ok ()) := by
  have hold2 : objGet (_buildOldConsentKey env id)
      (writeS st (_buildConsentKey env id) (if b then "true" else "false")).raw.data = none := by
    show objGet _ (objSet _ _ st.raw.data) = none
    rw [objGet_objSet_ne (fun hh => consentKey_ne_oldConsentKey env id id hh.symm)]
    exact hold
  simp [setConsentChoice, JSVal.jsToString, lsSet_healthy env st _ _ hA hT,
        lsGet_healthy env _ _ hA (noThrows_writeS hT _ _), hold2]

/-! ### Preservation of notification effects by the storage phases -/

theorem ext_refl (a : St) : Ext a a := ⟨rfl, rfl, rfl⟩

theorem ext_trans {a b c : St} (h1 : Ext a b) (h2 : Ext b c) : Ext a c :=
  ⟨h1.1.trans h2.1, h1.2.1.trans h2.2.1, h1.2.2.trans h2.2.2⟩

theorem ext_lsGet (env : Env) (st : St) (k : String) :
    Ext (_getLocalStorageItem env st k).1 st := by
  unfold _getLocalStorageItem
  split
  · exact ext_refl st
  · split
    · exact ⟨rfl, rfl, rfl⟩
    · exact ext_refl st

theorem ext_lsSet (env : Env) (st : St) (k v : String) :
    Ext (_setLocalStorageItem env st k v).1 st := by
  unfold _setLocalStorageItem
  split
  · exact ext_refl st
  · split
    · exact ⟨rfl, rfl, rfl⟩
    · exact ⟨rfl, rfl, rfl⟩

theorem ext_lsRemove (env : Env) (st : St) (k : String) :
    Ext (_removeLocalStorageItem env st k).1 st := by
  unfold _removeLocalStorageItem
  split
  · exact ext_refl st
  · split
    · exact ⟨rfl, rfl, rfl⟩
    · exact ⟨rfl, rfl, rfl⟩

theorem ext_getConsentChoice (env : Env) (st : St) (id : String) :
    Ext (getConsentChoice env st id).1 st := by
  have e1 := ext_lsGet env st (_buildConsentKey env id)
  rcases h1 : _getLocalStorageItem env st (_buildConsentKey env id) with ⟨st1, v1⟩
  rw [h1] at e1
  cases v1 with
  | some v => simp only [getConsentChoice, h1]; exact e1
  | none =>
    have e2 := ext_lsGet env st1 (_buildOldConsentKey env id)
    rcases h2 : _getLocalStorageItem env st1 (_buildOldConsentKey env id) with ⟨st2, v2⟩
    rw [h2] at e2
    cases v2 with
    | none => simp only [getConsentChoice, h1, h2]; exact ext_trans e2 e1
    | some v =>
      simp only [getConsentChoice, h1, h2]
      exact ext_trans (ext_lsRemove env _ _)
        (ext_trans (ext_lsSet env st2 _ _) (ext_trans e2 e1))

theorem ext_setConsentChoice (env : Env) (st : St) (id : String) (a : JSVal) :
    Ext (setConsentChoice env st id a).1 st := by
  cases a with
  | undef => exact ext_refl st
  | null => exact ext_refl st
  | bool b =>
    have e1 := ext_lsSet env st (_buildConsentKey env id) (if b then "true" else "false")
    rcases h1 : _setLocalStorageItem env st (_buildConsentKey env id)
        (if b then "true" else "false") with ⟨st1, r1⟩
    rw [h1] at e1
    have e2 := ext_lsGet env st1 (_buildOldConsentKey env id)
    rcases h2 : _getLocalStorageItem env st1 (_buildOldConsentKey env id) with ⟨st2, v2⟩
    rw [h2] at e2
    cases v2 with
    | none => simp only [setConsentChoice, JSVal.jsToString, h1, h2]; exact ext_trans e2 e1
    | some v =>
      simp only [setConsentChoice, JSVal.jsToString, h1, h2]
      exact ext_trans (ext_lsRemove env _ _) (ext_trans e2 e1)

theorem batchStep_st (env : Env) (m : ReqMap) (acc : BatchAcc) (t : ConsentType) :
    (batchStep env m acc t).st = (getConsentChoice env acc.st t.id).1 := by
  simp only [batchStep, apply_ite BatchAcc.st, ite_self]

theorem ext_batchStep (env : Env) (m : ReqMap) (acc : BatchAcc) (t : ConsentType) :
    Ext (batchStep env m acc t).st acc.st := by
  rw [batchStep_st]
  exact ext_getConsentChoice env acc.st t.id

theorem ext_foldl_batchStep (env : Env) (m : ReqMap) :
    ∀ (l : List ConsentType) (acc : BatchAcc),
      Ext (List.foldl (batchStep env m) acc l).st acc.st := by
  intro l
  induction l with
  | nil => intro acc; exact ext_refl acc.st
  | cons t l ih =>
    intro acc
    rw [List.foldl_cons]
    exact ext_trans (ih (batchStep env m acc t)) (ext_batchStep env m acc t)

theorem ext_batchPersist (env : Env) :
    ∀ (cs : List Change) (st : St), Ext (batchPersist env st cs).1 st := by
  intro cs
  induction cs with
  | nil => intro st; exact ext_refl st
  | cons c cs ih =>
    intro st
    unfold batchPersist
    have e1 := ext_setConsentChoice env st c.type.id c.newState
    rcases h1 : setConsentChoice env st c.type.id c.newState with ⟨st1, r1⟩
    rw [h1] at e1
    cases r1 with
    | error e => exact e1
    | ok u => exact ext_trans (ih st1) e1

theorem ext_injectScript (st : St) (sc : ScriptConfig) (id : String) :
    Ext (_injectScript st sc id) st := by
  unfold _injectScript
  split
  · exact ⟨rfl, rfl, rfl⟩
  · split
    · exact ⟨rfl, rfl, rfl⟩
    · split
      · exact ext_refl st
      · exact ⟨rfl, rfl, rfl⟩

theorem ext_foldl_injectScript (id : String) :
    ∀ (scripts : List ScriptConfig) (st : St),
      Ext (scripts.foldl (fun s sc => _injectScript s sc id) st) st := by
  intro scripts
  induction scripts with
  | nil => intro st; exact ext_refl st
  | cons sc rest ih =>
    intro st
    rw [List.foldl_cons]
    exact ext_trans (ih _) (ext_injectScript st sc id)

theorem ext_injectConsentScripts (st : St) (t : ConsentType) :
    Ext (_injectConsentScripts st t) st := by
  unfold _injectConsentScripts
  split
  · exact ext_refl st
  · exact ext_foldl_injectScript t.id _ st

theorem ext_callbackStep (st : St) (c : Change) :
    Ext (if c.newState.truthy then
           (if c.type.onAccept then
              { _injectConsentScripts st c.type with
                eff := { (_injectConsentScripts st c.type).eff with
                          acceptCallbacks :=
                            (_injectConsentScripts st c.type).eff.acceptCallbacks
                              ++ [c.type.id] } }
            else _injectConsentScripts st c.type)
         else
           (if c.type.onReject then
              { st with eff := { st.eff with
                                  rejectCallbacks := st.eff.rejectCallbacks ++ [c.type.id] } }
            else st)) st := by
  by_cases h1 : c.newState.truthy = true
  · by_cases h2 : c.type.onAccept = true
    · simp only [h1, h2, if_true]
      exact ext_trans ⟨rfl, rfl, rfl⟩ (ext_injectConsentScripts st c.type)
    · simp only [h1, h2, if_true, Bool.false_eq_true, if_false]
      exact ext_injectConsentScripts st c.type
  · by_cases h2 : c.type.onReject = true
    · simp only [h1, h2, if_true, Bool.false_eq_true, if_false]
      exact ⟨rfl, rfl, rfl⟩
    · simp only [h1, h2, Bool.false_eq_true, if_false]
      exact ext_refl st

theorem ext_batchCallbacks : ∀ (cs : List Change) (st : St),
    Ext (batchCallbacks st cs) st := by
  intro cs
  induction cs with
  | nil => intro st; exact ext_refl st
  | cons c cs ih =>
    intro st
    show Ext (List.foldl _ st (c :: cs)) st
    rw [List.foldl_cons]
    exact ext_trans (ih _) (ext_callbackStep st c)

/-! ### The first pass over a fixed storage snapshot -/

theorem changedCatB_iff (env : Env) (data : List (String × String)) (m : ReqMap)
    (t : ConsentType) :
    changedCatB env data m t = true ↔
      reqJS m t.id ≠ prevJS (storedChoice env data t.id) := by
  simp [changedCatB]

theorem pureStep_st (env : Env) (data : List (String × String)) (m : ReqMap)
    (acc : BatchAcc) (t : ConsentType) :
    (pureStep env data m acc t).st = acc.st := by
  simp only [pureStep, apply_ite BatchAcc.st, ite_self]

theorem pureStep_changes (env : Env) (data : List (String × String)) (m : ReqMap)
    (acc : BatchAcc) (t : ConsentType) :
    (pureStep env data m acc t).changes =
      acc.changes ++
        (if changedCatB env data m t = true then [mkChange env data m t] else []) := by
  by_cases hc : reqJS m t.id ≠ prevJS (storedChoice env data t.id)
  · simp [pureStep, hc, (changedCatB_iff env data m t).mpr hc, mkChange]
  · have hxy := of_not_not hc
    have hb : changedCatB env data m t = false := by simp [changedCatB, hxy]
    simp [pureStep, hc, hb]

theorem pureStep_hasChanges (env : Env) (data : List (String × String)) (m : ReqMap)
    (acc : BatchAcc) (t : ConsentType) :
    (pureStep env data m acc t).hasChanges =
      (acc.hasChanges || changedCatB env data m t) := by
  by_cases hc : reqJS m t.id ≠ prevJS (storedChoice env data t.id)
  · simp [pureStep, hc, (changedCatB_iff env data m t).mpr hc]
  · have hxy := of_not_not hc
    have hb : changedCatB env data m t = false := by simp [changedCatB, hxy]
    simp [pureStep, hc, hb]

theorem pureStep_needsReload (env : Env) (data : List (String × String)) (m : ReqMap)
    (acc : BatchAcc) (t : ConsentType) :
    (pureStep env data m acc t).needsReload =
      (acc.needsReload ||
        (changedCatB env data m t && revokedCatB env data m t && hadScriptsB t)) := by
  by_cases hc : reqJS m t.id ≠ prevJS (storedChoice env data t.id)
  · simp [pureStep, hc, (changedCatB_iff env data m t).mpr hc, revokedCatB]
  · have hxy := of_not_not hc
    have hb : changedCatB env data m t = false := by simp [changedCatB, hxy]
    simp [pureStep, hc, hb]

theorem pureStep_gtagUpdate (env : Env) (data : List (String × String)) (m : ReqMap)
    (acc : BatchAcc) (t : ConsentType) :
    (pureStep env data m acc t).gtagUpdate =
      if changedCatB env data m t && t.gtag.truthy then
        t.gtag.params.foldl
          (fun o p => objSet p (if (reqJS m t.id).truthy then "granted" else "denied") o)
          acc.gtagUpdate
      else acc.gtagUpdate := by
  by_cases hc : reqJS m t.id ≠ prevJS (storedChoice env data t.id)
  · by_cases hg : t.gtag.truthy = true
    · simp [pureStep, hc, (changedCatB_iff env data m t).mpr hc, hg]
    · simp [pureStep, hc, (changedCatB_iff env data m t).mpr hc, hg]
  · have hxy := of_not_not hc
    have hb : changedCatB env data m t = false := by simp [changedCatB, hxy]
    simp [pureStep, hc, hb]

theorem foldl_pureStep_st (env : Env) (data : List (String × String)) (m : ReqMap) :
    ∀ (l : List ConsentType) (acc : BatchAcc),
      (List.foldl (pureStep env data m) acc l).st = acc.st := by
  intro l
  induction l with
  | nil => intro acc; rfl
  | cons t l ih =>
    intro acc
    rw [List.foldl_cons, ih, pureStep_st]

theorem foldl_pureStep_changes (env : Env) (data : List (String × String)) (m : ReqMap) :
    ∀ (l : List ConsentType) (acc : BatchAcc),
      (List.foldl (pureStep env data m) acc l).changes =
        acc.changes ++ (l.filter (changedCatB env data m)).map (mkChange env data m) := by
  intro l
  induction l with
  | nil => intro acc; simp
  | cons t l ih =>
    intro acc
    rw [List.foldl_cons, ih, pureStep_changes]
    by_cases hc : changedCatB env data m t = true <;>
      simp [List.filter_cons, hc, List.append_assoc]

theorem foldl_pureStep_hasChanges (env : Env) (data : List (String × String)) (m : ReqMap) :
    ∀ (l : List ConsentType) (acc : BatchAcc),
      (List.foldl (pureStep env data m) acc l).hasChanges =
        (acc.hasChanges || l.any (changedCatB env data m)) := by
  intro l
  induction l with
  | nil => intro acc; simp
  | cons t l ih =>
    intro acc
    rw [List.foldl_cons, ih, pureStep_hasChanges]
    simp [Bool.or_assoc]

theorem foldl_pureStep_needsReload (env : Env) (data : List (String × String)) (m : ReqMap) :
    ∀ (l : List ConsentType) (acc : BatchAcc),
      (List.foldl (pureStep env data m) acc l).needsReload =
        (acc.needsReload ||
          l.any (fun t => changedCatB env data m t && revokedCatB env data m t
                            && hadScriptsB t)) := by
  intro l
  induction l with
  | nil => intro acc; simp
  | cons t l ih =>
    intro acc
    rw [List.foldl_cons, ih, pureStep_needsReload]
    simp [Bool.or_assoc]

theorem pureStep_payload (env : Env) (data : List (String × String)) (m : ReqMap)
    (acc : BatchAcc) (t : ConsentType) (p : String) :
    objGet p (pureStep env data m acc t).gtagUpdate =
      if changedCatB env data m t && t.gtag.truthy && decide (p ∈ t.gtag.params) then
        some (if (reqJS m t.id).truthy then "granted" else "denied")
      else objGet p acc.gtagUpdate := by
  rw [pureStep_gtagUpdate]
  by_cases h1 : (changedCatB env data m t && t.gtag.truthy) = true
  · rw [if_pos h1, objGet_writeAll]
    by_cases h2 : p ∈ t.gtag.params <;> simp [h1, h2]
  · rw [if_neg h1]
    have h1f : (changedCatB env data m t && t.gtag.truthy) = false :=
      Bool.eq_false_iff.mpr h1
    simp [h1f]

theorem foldl_payload_preserve (env : Env) (data : List (String × String)) (m : ReqMap)
    (p : String) :
    ∀ (l : List ConsentType) (acc : BatchAcc),
      (∀ t ∈ l, changedCatB env data m t = true → t.gtag.truthy = true →
        p ∉ t.gtag.params) →
      objGet p (List.foldl (pureStep env data m) acc l).gtagUpdate =
        objGet p acc.gtagUpdate := by
  intro l
  induction l with
  | nil => intro acc _; rfl
  | cons t l ih =>
    intro acc h
    rw [List.foldl_cons, ih _ (fun t' ht' => h t' (List.mem_cons_of_mem _ ht'))]
    rw [pureStep_payload]
    have hfalse :
        (changedCatB env data m t && t.gtag.truthy && decide (p ∈ t.gtag.params)) = false := by
      by_cases h1 : changedCatB env data m t = true
      · by_cases h2 : t.gtag.truthy = true
        · simp [h1, h2, h t (List.mem_cons_self t l) h1 h2]
        · simp [h2]
      · simp [h1]
    rw [hfalse]
    simp

theorem foldl_payload_const (env : Env) (data : List (String × String)) (m : ReqMap)
    (p v : String) :
    ∀ (l : List ConsentType) (acc : BatchAcc),
      (∀ t ∈ l, changedCatB env data m t = true → t.gtag.truthy = true →
        p ∈ t.gtag.params →
        (if (reqJS m t.id).truthy then "granted" else "denied") = v) →
      objGet p acc.gtagUpdate = some v →
      objGet p (List.foldl (pureStep env data m) acc l).gtagUpdate = some v := by
  intro l
  induction l with
  | nil => intro acc _ hacc; exact hacc
  | cons t l ih =>
    intro acc h hacc
    rw [List.foldl_cons]
    apply ih _ (fun t' ht' => h t' (List.mem_cons_of_mem _ ht'))
    rw [pureStep_payload]
    by_cases hw : (changedCatB env data m t && t.gtag.truthy && decide (p ∈ t.gtag.params)) = true
    · rw [if_pos hw]
      simp only [Bool.and_eq_true, decide_eq_true_eq] at hw
      rw [h t (List.mem_cons_self t l) hw.1.1 hw.1.2 hw.2]
    · rw [if_neg hw]
      exact hacc

theorem foldl_payload_mem (env : Env) (data : List (String × String)) (m : ReqMap)
    (p : String) :
    ∀ (l : List ConsentType) (acc : BatchAcc) (t : ConsentType),
      t ∈ l → changedCatB env data m t = true → t.gtag.truthy = true →
      p ∈ t.gtag.params →
      (∀ t' ∈ l, t' ≠ t → changedCatB env data m t' = true → t'.gtag.truthy = true →
        p ∉ t'.gtag.params) →
      objGet p (List.foldl (pureStep env data m) acc l).gtagUpdate =
        some (if (reqJS m t.id).truthy then "granted" else "denied") := by
  intro l
  induction l with
  | nil => intro acc t hm; simp at hm
  | cons u l ih =>
    intro acc t hm hc ht hp hother
    rw [List.foldl_cons]
    by_cases hw : (changedCatB env data m u && u.gtag.truthy && decide (p ∈ u.gtag.params)) = true
    · have hval : (if (reqJS m u.id).truthy then "granted" else "denied") =
          (if (reqJS m t.id).truthy then "granted" else "denied") := by
        by_cases he : u = t
        · rw [he]
        · exfalso
          simp only [Bool.and_eq_true, decide_eq_true_eq] at hw
          exact hother u (List.mem_cons_self u l) he hw.1.1 hw.1.2 hw.2
      apply foldl_payload_const env data m p _ l
      · intro t' ht' h1 h2 h3
        by_cases he : t' = t
        · rw [he]
        · exact absurd h3 (hother t' (List.mem_cons_of_mem _ ht') he h1 h2)
      · rw [pureStep_payload, if_pos hw, hval]
    · have htl : t ∈ l := by
        rcases List.mem_cons.mp hm with he | hl
        · exfalso
          apply hw
          subst he
          simp [hc, ht, hp]
        · exact hl
      exact ih (pureStep env data m acc u) t htl hc ht hp
        (fun t' ht' => hother t' (List.mem_cons_of_mem _ ht'))

/-! ### The first pass coincides with the pure fold under healthy storage -/

theorem foldl_batchStep_eq_pureStep (env : Env) (m : ReqMap) (st : St)
    (hA : env.localStorageAvailable = true) (hT : NoThrows st.raw) :
    ∀ (l : List ConsentType) (acc : BatchAcc), acc.st = st →
      (∀ t ∈ l, objGet (_buildOldConsentKey env t.id) st.raw.data = none) →
      List.foldl (batchStep env m) acc l = List.foldl (pureStep env st.raw.data m) acc l := by
  intro l
  induction l with
  | nil => intro acc _ _; rfl
  | cons t l ih =>
    intro acc hacc hold
    rw [List.foldl_cons, List.foldl_cons]
    have hgcc : getConsentChoice env acc.st t.id =
        (acc.st, storedChoice env st.raw.data t.id) := by
      rw [hacc]
      exact getConsentChoice_healthy_noLegacy env st t.id hA hT
        (hold t (List.mem_cons_self t l))
    have hstep : batchStep env m acc t = pureStep env st.raw.data m acc t := by
      simp only [batchStep, pureStep, hgcc]
    rw [hstep]
    exact ih (pureStep env st.raw.data m acc t)
      (by rw [pureStep_st]; exact hacc)
      (fun t' ht' => hold t' (List.mem_cons_of_mem _ ht'))

/-- The whole first pass, under healthy storage with no legacy keys:
state untouched, accumulator given by the pure fold. -/
theorem batchFirstPass_healthy (env : Env) (st : St) (m : ReqMap)
    (hA : env.localStorageAvailable = true) (hT : NoThrows st.raw)
    (hold : ∀ t ∈ env.consentTypes, objGet (_buildOldConsentKey env t.id) st.raw.data = none) :
    batchFirstPass env st m =
      List.foldl (pureStep env st.raw.data m) ⟨st, [], [], false, false⟩ env.consentTypes := by
  unfold batchFirstPass
  exact foldl_batchStep_eq_pureStep env m st hA hT env.consentTypes _ rfl hold

/-! ### No-change runs are complete no-ops -/

theorem pureStep_id (env : Env) (data : List (String × String)) (m : ReqMap)
    (acc : BatchAcc) (t : ConsentType) (hc : changedCatB env data m t = false) :
    pureStep env data m acc t = acc := by
  have hne : ¬(reqJS m t.id ≠ prevJS (storedChoice env data t.id)) := by
    intro hx
    rw [(changedCatB_iff env data m t).mpr hx] at hc
    exact Bool.true_eq_false.mp hc
  simp [pureStep, hne]

theorem foldl_pureStep_id (env : Env) (data : List (String × String)) (m : ReqMap) :
    ∀ (l : List ConsentType) (acc : BatchAcc),
      (∀ t ∈ l, changedCatB env data m t = false) →
      List.foldl (pureStep env data m) acc l = acc := by
  intro l
  induction l with
  | nil => intro acc _; rfl
  | cons t l ih =>
    intro acc h
    rw [List.foldl_cons, pureStep_id env data m acc t (h t (List.mem_cons_self t l))]
    exact ih acc (fun t' ht' => h t' (List.mem_cons_of_mem _ ht'))

/-- When storage is healthy, no legacy keys remain, and every requested
state strictly equals the stored choice, `batchUpdateConsents` returns
`false` and the state — storage and every effect — is bit-for-bit
unchanged. -/
theorem batch_noop (env : Env) (st : St) (m : ReqMap)
    (hA : env.localStorageAvailable = true) (hT : NoThrows st.raw)
    (hold : ∀ t ∈ env.consentTypes, objGet (_buildOldConsentKey env t.id) st.raw.data = none)
    (hmatch : ∀ t ∈ env.consentTypes, changedCatB env st.raw.data m t = false) :
    batchUpdateConsents env st m = (st, .ok false) := by
  unfold batchUpdateConsents
  rw [batchFirstPass_healthy env st m hA hT hold,
      foldl_pureStep_id env st.raw.data m env.consentTypes _ hmatch]
  rfl

/-! ### Persistence pass -/

theorem jsvalStr_bool (b : Bool) : jsvalStr (JSVal.bool b) = if b then "true" else "false" := rfl

theorem setConsentChoice_bool_ok (env : Env) (st : St) (id : String) (b : Bool) :
    (setConsentChoice env st id (JSVal.bool b)).2 = Except.ok () := by
  simp only [setConsentChoice, JSVal.jsToString]
  split <;> rfl

theorem batchPersist_ok (env : Env) :
    ∀ (cs : List Change) (st : St),
      (∀ c ∈ cs, ∃ b, c.newState = JSVal.bool b) →
      (batchPersist env st cs).2 = Except.ok () := by
  intro cs
  induction cs with
  | nil => intro st _; rfl
  | cons c cs ih =>
    intro st hb
    obtain ⟨b, hbb⟩ := hb c (List.mem_cons_self c cs)
    have hok := setConsentChoice_bool_ok env st c.type.id b
    rw [← hbb] at hok
    simp only [batchPersist]
    rcases hr : setConsentChoice env st c.type.id c.newState with ⟨st1, r1⟩
    rw [hr] at hok
    simp only at hok
    subst hok
    exact ih st1 (fun c' hc' => hb c' (List.mem_cons_of_mem _ hc'))

theorem batchPersist_healthy (env : Env) :
    ∀ (cs : List Change) (st : St),
      env.localStorageAvailable = true → NoThrows st.raw →
      (∀ c ∈ cs, ∃ b, c.newState = JSVal.bool b) →
      (∀ c ∈ cs, objGet (_buildOldConsentKey env c.type.id) st.raw.data = none) →
      (batchPersist env st cs).2 = Except.ok () ∧
      (batchPersist env st cs).1.raw.data =
        cs.foldl
          (fun d c => objSet (_buildConsentKey env c.type.id) (jsvalStr c.newState) d)
          st.raw.data ∧
      NoThrows (batchPersist env st cs).1.raw := by
  intro cs
  induction cs with
  | nil => intro st _ hT _ _; exact ⟨rfl, rfl, hT⟩
  | cons c cs ih =>
    intro st hA hT hb hold
    obtain ⟨b, hbb⟩ := hb c (List.mem_cons_self c cs)
    have hset := setConsentChoice_healthy_bool env st c.type.id b hA hT
      (hold c (List.mem_cons_self c cs))
    rw [← hbb] at hset
    simp only [batchPersist, hset]
    set st1 := writeS st (_buildConsentKey env c.type.id) (if b then "true" else "false")
      with hst1
    have hT1 : NoThrows st1.raw := noThrows_writeS hT _ _
    have hold1 : ∀ c' ∈ cs, objGet (_buildOldConsentKey env c'.type.id) st1.raw.data = none := by
      intro c' hc'
      show objGet _ (objSet _ _ st.raw.data) = none
      rw [objGet_objSet_ne
            (fun hh => consentKey_ne_oldConsentKey env c.type.id c'.type.id hh.symm)]
      exact hold c' (List.mem_cons_of_mem _ hc')
    obtain ⟨h1, h2, h3⟩ := ih st1 hA hT1
      (fun c' hc' => hb c' (List.mem_cons_of_mem _ hc')) hold1
    refine ⟨h1, ?_, h3⟩
    rw [h2, List.foldl_cons, hbb, jsvalStr_bool]
    rfl

/-! ### General shape of the accumulated changes -/

theorem batchStep_changes (env : Env) (m : ReqMap) (acc : BatchAcc) (t : ConsentType) :
    (batchStep env m acc t).changes =
      acc.changes ++
        (if reqJS m t.id ≠ prevJS (getConsentChoice env acc.st t.id).2 then
           [⟨t, reqJS m t.id, (getConsentChoice env acc.st t.id).2⟩]
         else []) := by
  by_cases hc : reqJS m t.id ≠ prevJS (getConsentChoice env acc.st t.id).2
  · simp [batchStep, hc]
  · simp [batchStep, hc]

theorem foldl_batchStep_changes_shape (env : Env) (m : ReqMap) :
    ∀ (l : List ConsentType) (acc : BatchAcc),
      ∀ c ∈ (List.foldl (batchStep env m) acc l).changes,
        c ∈ acc.changes ∨ (c.type ∈ l ∧ c.newState = reqJS m c.type.id) := by
  intro l
  induction l with
  | nil =>
    intro acc c hc
    exact Or.inl hc
  | cons t l ih =>
    intro acc c hc
    rw [List.foldl_cons] at hc
    rcases ih (batchStep env m acc t) c hc with h | h
    · rw [batchStep_changes] at h
      rcases List.mem_append.mp h with h' | h'
      · exact Or.inl h'
      · split at h'
        · rcases List.mem_singleton.mp h' with rfl
          exact Or.inr ⟨List.mem_cons_self t l, rfl⟩
        · simp at h'
    · exact Or.inr ⟨List.mem_cons_of_mem _ h.1, h.2⟩

/-! ### Field equations for the notification phases -/

theorem batchIntegration_dlp (env : Env) (st : St) (u : List (String × String)) :
    (batchIntegration env st u).eff.dataLayerPushes = st.eff.dataLayerPushes := by
  unfold batchIntegration
  split
  · rfl
  · split
    · split
      · rfl
      · rfl
    · rfl

theorem batchIntegration_reloads (env : Env) (st : St) (u : List (String × String)) :
    (batchIntegration env st u).eff.reloadsScheduled = st.eff.reloadsScheduled := by
  unfold batchIntegration
  split
  · rfl
  · split
    · split
      · rfl
      · rfl
    · rfl

theorem batchIntegration_call (env : Env) (st : St) (u : List (String × String))
    (hu : u ≠ []) (hg : env.gtagDefined = true) :
    batchIntegration env st u =
      { st with eff := { st.eff with gtagCalls := st.eff.gtagCalls ++ [u] } } := by
  have hcond : (decide (u.length > 0) && env.gtagDefined) = true := by
    simp [hg, List.length_pos, hu]
  simp [batchIntegration, hcond]

theorem batchIntegration_skip (env : Env) (st : St) :
    batchIntegration env st [] = st := by
  simp [batchIntegration, jsStrTruthy, objGet]

theorem pushEvent_dlp (env : Env) (st : St) :
    (pushEvent env st).eff.dataLayerPushes = st.eff.dataLayerPushes ++ [env.eventName] := rfl

theorem pushEvent_gtag (env : Env) (st : St) :
    (pushEvent env st).eff.gtagCalls = st.eff.gtagCalls := rfl

theorem pushEvent_reloads (env : Env) (st : St) :
    (pushEvent env st).eff.reloadsScheduled = st.eff.reloadsScheduled := rfl

theorem scheduleReload_reloads (st : St) :
    (scheduleReload st).eff.reloadsScheduled = st.eff.reloadsScheduled + 1 := rfl

theorem scheduleReload_dlp (st : St) :
    (scheduleReload st).eff.dataLayerPushes = st.eff.dataLayerPushes := rfl

theorem scheduleReload_gtag (st : St) :
    (scheduleReload st).eff.gtagCalls = st.eff.gtagCalls := rfl

/-! ### `getAcceptedConsents` under healthy storage -/

theorem getAcceptedConsents_fold (env : Env) (st : St)
    (hA : env.localStorageAvailable = true) (hT : NoThrows st.raw) :
    ∀ (l : List ConsentType) (obj : List (String × Option Bool)),
      (∀ t ∈ l, objGet (_buildOldConsentKey env t.id) st.raw.data = none) →
      List.foldl
        (fun (p : St × List (String × Option Bool)) t =>
          let r := getConsentChoice env p.1 t.id
          (r.1, objSet t.id r.2 p.2))
        (st, obj) l =
      (st, l.foldl (fun o t => objSet t.id (storedChoice env st.raw.data t.id) o) obj) := by
  intro l
  induction l with
  | nil => intro obj _; rfl
  | cons t l ih =>
    intro obj hold
    rw [List.foldl_cons, List.foldl_cons]
    have hgcc := getConsentChoice_healthy_noLegacy env st t.id hA hT
      (hold t (List.mem_cons_self t l))
    simp only [hgcc]
    exact ih _ (fun t' ht' => hold t' (List.mem_cons_of_mem _ ht'))

theorem getAcceptedConsents_healthy (env : Env) (st : St)
    (hA : env.localStorageAvailable = true) (hT : NoThrows st.raw)
    (hold : ∀ t ∈ env.consentTypes, objGet (_buildOldConsentKey env t.id) st.raw.data = none) :
    getAcceptedConsents env st =
      (st, env.consentTypes.foldl
             (fun o t => objSet t.id (storedChoice env st.raw.data t.id) o) []) := by
  unfold getAcceptedConsents
  exact getAcceptedConsents_fold env st hA hT env.consentTypes [] hold

/-- Reading a nodup-keyed id out of an id-indexed fold of writes. -/
theorem objGet_foldl_byId {α : Type} (val : ConsentType → α) :
    ∀ (l : List ConsentType) (obj : List (String × α)) (t : ConsentType),
      t ∈ l → (l.map ConsentType.id).Nodup →
      objGet t.id (l.foldl (fun o u => objSet u.id (val u) o) obj) = some (val t) := by
  intro l obj t hmem hnd
  have hfold :
      l.foldl (fun o u => objSet u.id (val u) o) obj =
        (l.map (fun u => (u.id, val u))).foldl (fun o p => objSet p.1 p.2 o) obj := by
    rw [List.foldl_map]
  rw [hfold]
  apply objGet_foldl_objSet_mem
  · rw [List.map_map]
    exact hnd
  · exact List.mem_map.mpr ⟨t, hmem, rfl⟩

/-! ### Claim theorems -/

/-- Claim C3: for a category whose current-family key is absent and whose
legacy-family key holds `"true"`, one `getConsentChoice` call returns
Granted (`some true`), writes `"true"` under the current-family key and
deletes the legacy-family key; a second call on the resulting state
returns the same result and leaves the state untouched. -/
theorem migration_read_once (env : Env) (st : St) (tid : String)
    (hA : env.localStorageAvailable = true) (hT : NoThrows st.raw)
    (hnew : objGet (_buildConsentKey env tid) st.raw.data = none)
    (hleg : objGet (_buildOldConsentKey env tid) st.raw.data = some "true") :
    (getConsentChoice env st tid).2 = some true ∧
    objGet (_buildConsentKey env tid) (getConsentChoice env st tid).1.raw.data =
      some "true" ∧
    objGet (_buildOldConsentKey env tid) (getConsentChoice env st tid).1.raw.data = none ∧
    getConsentChoice env (getConsentChoice env st tid).1 tid =
      ((getConsentChoice env st tid).1, some true) := by
  have hne : _buildConsentKey env tid ≠ _buildOldConsentKey env tid :=
    consentKey_ne_oldConsentKey env tid tid
  have hmig := getConsentChoice_healthy_migrate env st tid "true" hA hT hnew hleg
  rw [hmig]
  have h2 : objGet (_buildConsentKey env tid)
      (eraseS (writeS st (_buildConsentKey env tid) "true")
        (_buildOldConsentKey env tid)).raw.data = some "true" := by
    show objGet _ (objRemove _ (objSet _ _ st.raw.data)) = some "true"
    rw [objGet_objRemove_ne hne, objGet_objSet_self]
  have hT' : NoThrows (eraseS (writeS st (_buildConsentKey env tid) "true")
      (_buildOldConsentKey env tid)).raw := noThrows_eraseS (noThrows_writeS hT _ _) _
  refine ⟨rfl, h2, ?_, ?_⟩
  · show objGet _ (objRemove _ (objSet _ _ st.raw.data)) = none
    exact objGet_objRemove_self _ _
  · exact getConsentChoice_healthy_fast env _ tid "true" hA hT' h2

/-- Witness for C3 at a concrete legacy-only store. -/
theorem migration_read_once_witness :
    (getConsentChoice (mkEnv [catPlain] false)
        (mkSt [("silktideCookieChoice_a", "true")]) "a").2 = some true ∧
    objGet (_buildConsentKey (mkEnv [catPlain] false) "a")
      (getConsentChoice (mkEnv [catPlain] false)
        (mkSt [("silktideCookieChoice_a", "true")]) "a").1.raw.data = some "true" ∧
    objGet (_buildOldConsentKey (mkEnv [catPlain] false) "a")
      (getConsentChoice (mkEnv [catPlain] false)
        (mkSt [("silktideCookieChoice_a", "true")]) "a").1.raw.data = none ∧
    getConsentChoice (mkEnv [catPlain] false)
      (getConsentChoice (mkEnv [catPlain] false)
        (mkSt [("silktideCookieChoice_a", "true")]) "a").1 "a" =
      ((getConsentChoice (mkEnv [catPlain] false)
         (mkSt [("silktideCookieChoice_a", "true")]) "a").1, some true) :=
  migration_read_once (mkEnv [catPlain] false) (mkSt [("silktideCookieChoice_a", "true")])
    "a" rfl ⟨fun _ => rfl, fun _ _ => rfl, fun _ => rfl⟩ rfl rfl

/-- Claim C9: the storage adapter never propagates an error.  When the
availability probe failed, `get` answers `null` and `set`/`remove` are
no-ops answering `false`; when storage is available but the raw
operation throws, the exception is swallowed, one warning is logged
(`warnEff`), and absence/failure is reported.  The probe itself succeeds
exactly when the throwaway write and delete both succeed. -/
theorem storage_adapter_never_throws (env : Env) (st : St) (k v : String) :
    (env.localStorageAvailable = false →
       _getLocalStorageItem env st k = (st, none) ∧
       _setLocalStorageItem env st k v = (st, false) ∧
       _removeLocalStorageItem env st k = (st, false)) ∧
    (env.localStorageAvailable = true →
       (st.raw.getThrows k = true →
          _getLocalStorageItem env st k = (warnEff st, none)) ∧
       (st.raw.setThrows k v = true →
          _setLocalStorageItem env st k v = (warnEff st, false)) ∧
       (st.raw.removeThrows k = true →
          _removeLocalStorageItem env st k = (warnEff st, false))) ∧
    (_checkLocalStorageAvailable st).2 =
      (!st.raw.setThrows testKey "1" && !st.raw.removeThrows testKey) := by
  refine ⟨?_, ?_, ?_⟩
  · intro hA
    exact ⟨by simp [_getLocalStorageItem, hA],
           by simp [_setLocalStorageItem, hA],
           by simp [_removeLocalStorageItem, hA]⟩
  · intro hA
    refine ⟨?_, ?_, ?_⟩
    · intro hth; simp [_getLocalStorageItem, hA, rawGetItem, hth]
    · intro hth; simp [_setLocalStorageItem, hA, rawSetItem, hth]
    · intro hth; simp [_removeLocalStorageItem, hA, rawRemoveItem, hth]
  · unfold _checkLocalStorageAvailable rawSetItem rawRemoveItem
    by_cases h1 : st.raw.setThrows testKey "1" = true
    · simp [h1]
    · by_cases h2 : st.raw.removeThrows testKey = true
      · simp [h1, h2]
      · simp [h1, h2]

/-- Witness for C9 at a concrete state whose fault oracle always fires. -/
theorem storage_adapter_never_throws_witness :
    _getLocalStorageItem (mkEnv [catPlain] false)
        ⟨⟨[], fun _ => true, fun _ _ => true, fun _ => true⟩, [], {}⟩ "k" =
      (warnEff ⟨⟨[], fun _ => true, fun _ _ => true, fun _ => true⟩, [], {}⟩, none) ∧
    (_checkLocalStorageAvailable
        ⟨⟨[], fun _ => true, fun _ _ => true, fun _ => true⟩, [], {}⟩).2 = false :=
  ⟨((storage_adapter_never_throws (mkEnv [catPlain] false)
      ⟨⟨[], fun _ => true, fun _ _ => true, fun _ => true⟩, [], {}⟩ "k" "v").2.1 rfl).1 rfl,
   (storage_adapter_never_throws (mkEnv [catPlain] false)
      ⟨⟨[], fun _ => true, fun _ _ => true, fun _ => true⟩, [], {}⟩ "k" "v").2.2⟩

/-- Claim C10: `getHasConsented` tests only presence: it answers `true`
exactly when some value sits under the current-family or legacy-family
has-consented key, whatever the stored string; `setHasConsented` writes
exactly `"1"`. -/
theorem hasConsented_presence_only (env : Env) (st : St)
    (hA : env.localStorageAvailable = true) (hT : NoThrows st.raw) :
    (getHasConsented env st).2 =
      ((objGet (_buildHasConsentedKey env) st.raw.data).isSome ||
       (objGet (_buildOldHasConsentedKey env) st.raw.data).isSome) ∧
    objGet (_buildHasConsentedKey env) (setHasConsented env st).raw.data = some "1" := by
  constructor
  · cases hnew : objGet (_buildHasConsentedKey env) st.raw.data with
    | some v => simp [getHasConsented, lsGet_healthy env st _ hA hT, hnew]
    | none =>
      cases holdv : objGet (_buildOldHasConsentedKey env) st.raw.data with
      | none => simp [getHasConsented, lsGet_healthy env st _ hA hT, hnew, holdv]
      | some v =>
        simp [getHasConsented, lsGet_healthy env st _ hA hT, hnew, holdv,
              lsSet_healthy env st _ _ hA hT,
              lsRemove_healthy env _ _ hA (noThrows_writeS hT _ _)]
  · have hset := lsSet_healthy env st (_buildHasConsentedKey env) "1" hA hT
    have hT' : NoThrows (writeS st (_buildHasConsentedKey env) "1").raw :=
      noThrows_writeS hT _ _
    have hget := lsGet_healthy env (writeS st (_buildHasConsentedKey env) "1")
      (_buildOldHasConsentedKey env) hA hT'
    cases hv : objGet (_buildOldHasConsentedKey env)
        (writeS st (_buildHasConsentedKey env) "1").raw.data with
    | none =>
      simp only [setHasConsented, hset, hget, hv]
      exact objGet_objSet_self _ _ _
    | some w =>
      simp only [setHasConsented, hset, hget, hv,
                 lsRemove_healthy env _ _ hA hT']
      show objGet _ (objRemove _ (objSet _ _ st.raw.data)) = some "1"
      rw [objGet_objRemove_ne (hasConsentedKey_ne_old env), objGet_objSet_self]

/-- Witness for C10: a stored `"0"` still reads as has-consented. -/
theorem hasConsented_presence_only_witness :
    (getHasConsented (mkEnv [catPlain] false) (mkSt [("stcm.hasConsented", "0")])).2 =
      ((objGet (_buildHasConsentedKey (mkEnv [catPlain] false))
          (mkSt [("stcm.hasConsented", "0")]).raw.data).isSome ||
       (objGet (_buildOldHasConsentedKey (mkEnv [catPlain] false))
          (mkSt [("stcm.hasConsented", "0")]).raw.data).isSome) ∧
    objGet (_buildHasConsentedKey (mkEnv [catPlain] false))
      (setHasConsented (mkEnv [catPlain] false)
        (mkSt [("stcm.hasConsented", "0")])).raw.data = some "1" :=
  hasConsented_presence_only (mkEnv [catPlain] false) (mkSt [("stcm.hasConsented", "0")])
    rfl ⟨fun _ => rfl, fun _ _ => rfl, fun _ => rfl⟩

/-- Counterexample to C1 as stated: with the stored choice living only
under the legacy-family key, a batch identical to the stored state still
returns `false`, yet the first-pass reads migrate the key — a storage
write and a storage removal happen. -/
theorem batch_identical_request_writes_storage :
    (getConsentChoice (mkEnv [catPlain] false)
       (mkSt [("silktideCookieChoice_a", "true")]) "a").2 = some true ∧
    (batchUpdateConsents (mkEnv [catPlain] false)
       (mkSt [("silktideCookieChoice_a", "true")])
       (fun id => if id = "a" then some true else none)).2 = Except.ok false ∧
    (batchUpdateConsents (mkEnv [catPlain] false)
       (mkSt [("silktideCookieChoice_a", "true")])
       (fun id => if id = "a" then some true else none)).1.eff.storageSets =
      [("stcm.consent.a", "true")] ∧
    (batchUpdateConsents (mkEnv [catPlain] false)
       (mkSt [("silktideCookieChoice_a", "true")])
       (fun id => if id = "a" then some true else none)).1.eff.storageRemoves =
      ["silktideCookieChoice_a"] :=
  ⟨rfl, rfl, rfl, rfl⟩

/-- Claim C1 (amended): when no legacy-family key remains for any
configured category (so the reads cannot trigger a migration), a
requested map that strictly equals every stored choice makes
`batchUpdateConsents` return `false` with the state — storage contents
and every effect — bit-for-bit unchanged. -/
theorem batch_identical_request_noop (env : Env) (st : St) (m : ReqMap)
    (hA : env.localStorageAvailable = true) (hT : NoThrows st.raw)
    (hold : ∀ t ∈ env.consentTypes,
      objGet (_buildOldConsentKey env t.id) st.raw.data = none)
    (hmatch : ∀ t ∈ env.consentTypes,
      ∃ b, m t.id = some b ∧ storedChoice env st.raw.data t.id = some b) :
    batchUpdateConsents env st m = (st, Except.ok false) := by
  apply batch_noop env st m hA hT hold
  intro t ht
  obtain ⟨b, hm, hs⟩ := hmatch t ht
  simp [changedCatB, reqJS, hm, prevJS, hs]

/-- Witness for the amended C1 at a concrete migrated store. -/
theorem batch_identical_request_noop_witness :
    batchUpdateConsents (mkEnv [catPlain] false) (mkSt [("stcm.consent.a", "true")])
        (fun id => if id = "a" then some true else none) =
      (mkSt [("stcm.consent.a", "true")], Except.ok false) :=
  batch_identical_request_noop (mkEnv [catPlain] false)
    (mkSt [("stcm.consent.a", "true")])
    (fun id => if id = "a" then some true else none)
    rfl ⟨fun _ => rfl, fun _ _ => rfl, fun _ => rfl⟩
    (by
      intro t ht
      rcases List.mem_singleton.mp ht with rfl
      rfl)
    (by
      intro t ht
      rcases List.mem_singleton.mp ht with rfl
      exact ⟨true, rfl, rfl⟩)

/-- Counterexample to C4 as stated: a category with no stored choice is
mapped to `null` (`none`), not to the boolean `false`. -/
theorem getAcceptedConsents_returns_null_for_unset :
    (getAcceptedConsents (mkEnv [catPlain] false) (mkSt [])).2 =
      [("a", (none : Option Bool))] ∧
    objGet "a" (getAcceptedConsents (mkEnv [catPlain] false) (mkSt [])).2 ≠
      some (some false) :=
  ⟨rfl, by decide⟩

/-- Claim C4 (amended): `getAcceptedConsents` assigns each configured
category the raw tri-state choice: `some true` iff Granted, `some false`
iff Denied, and `none` (JavaScript `null`, not a boolean) when Unset. -/
theorem getAcceptedConsents_tristate (env : Env) (st : St)
    (hA : env.localStorageAvailable = true) (hT : NoThrows st.raw)
    (hold : ∀ t ∈ env.consentTypes,
      objGet (_buildOldConsentKey env t.id) st.raw.data = none)
    (hnd : (env.consentTypes.map ConsentType.id).Nodup)
    (t : ConsentType) (ht : t ∈ env.consentTypes) :
    (getAcceptedConsents env st).1 = st ∧
    objGet t.id (getAcceptedConsents env st).2 =
      some (storedChoice env st.raw.data t.id) := by
  rw [getAcceptedConsents_healthy env st hA hT hold]
  exact ⟨rfl,
    objGet_foldl_byId (fun u => storedChoice env st.raw.data u.id)
      env.consentTypes [] t ht hnd⟩

/-- Witness for the amended C4 at a concrete empty store (Unset). -/
theorem getAcceptedConsents_tristate_witness :
    (getAcceptedConsents (mkEnv [catPlain] false) (mkSt [])).1 = mkSt [] ∧
    objGet "a" (getAcceptedConsents (mkEnv [catPlain] false) (mkSt [])).2 =
      some (storedChoice (mkEnv [catPlain] false) (mkSt []).raw.data "a") :=
  getAcceptedConsents_tristate (mkEnv [catPlain] false) (mkSt [])
    rfl ⟨fun _ => rfl, fun _ _ => rfl, fun _ => rfl⟩
    (by intro t ht; rcases List.mem_singleton.mp ht with rfl; rfl)
    (by decide) catPlain (List.mem_singleton.mpr rfl)

/-- Claim C7: the requested-state map `handleConsentChoice` builds and
passes to `batchUpdateConsents` assigns `true` to every required
category regardless of the boolean argument, and the argument itself to
every non-required category. -/
theorem handleConsentChoice_forces_required (env : Env) (accepted : Bool)
    (hnd : (env.consentTypes.map ConsentType.id).Nodup)
    (t : ConsentType) (ht : t ∈ env.consentTypes) :
    objGet t.id (handleConsentStatesObj env accepted) =
      some (if t.required then true else accepted) := by
  unfold handleConsentStatesObj
  exact objGet_foldl_byId (fun u => if u.required then true else accepted)
    env.consentTypes [] t ht hnd

/-- Witness for C7: the required category is forced `true` even on
reject-all, and the optional category takes the argument. -/
theorem handleConsentChoice_forces_required_witness :
    objGet "req" (handleConsentStatesObj (mkEnv [catReq, catPlain] false) false) =
      some true ∧
    objGet "a" (handleConsentStatesObj (mkEnv [catReq, catPlain] false) false) =
      some false :=
  ⟨handleConsentChoice_forces_required (mkEnv [catReq, catPlain] false) false
     (by decide) catReq (by decide),
   handleConsentChoice_forces_required (mkEnv [catReq, catPlain] false) false
     (by decide) catPlain (by decide)⟩

/-! ### Raw-storage preservation by the notification phases -/

theorem raw_batchIntegration (env : Env) (st : St) (u : List (String × String)) :
    (batchIntegration env st u).raw = st.raw := by
  unfold batchIntegration
  split
  · rfl
  · split
    · split
      · rfl
      · rfl
    · rfl

theorem raw_pushEvent (env : Env) (st : St) : (pushEvent env st).raw = st.raw := rfl

theorem raw_scheduleReload (st : St) : (scheduleReload st).raw = st.raw := rfl

theorem raw_injectScript (st : St) (sc : ScriptConfig) (id : String) :
    (_injectScript st sc id).raw = st.raw := by
  unfold _injectScript
  split
  · rfl
  · split
    · rfl
    · split
      · rfl
      · rfl

theorem raw_foldl_injectScript (id : String) :
    ∀ (scripts : List ScriptConfig) (st : St),
      (scripts.foldl (fun s sc => _injectScript s sc id) st).raw = st.raw := by
  intro scripts
  induction scripts with
  | nil => intro st; rfl
  | cons sc rest ih =>
    intro st
    rw [List.foldl_cons, ih, raw_injectScript]

theorem raw_injectConsentScripts (st : St) (t : ConsentType) :
    (_injectConsentScripts st t).raw = st.raw := by
  unfold _injectConsentScripts
  split
  · rfl
  · exact raw_foldl_injectScript t.id _ st

theorem raw_callbackStep (st : St) (c : Change) :
    (if c.newState.truthy then
       (if c.type.onAccept then
          { _injectConsentScripts st c.type with
            eff := { (_injectConsentScripts st c.type).eff with
                      acceptCallbacks :=
                        (_injectConsentScripts st c.type).eff.acceptCallbacks
                          ++ [c.type.id] } }
        else _injectConsentScripts st c.type)
     else
       (if c.type.onReject then
          { st with eff := { st.eff with
                              rejectCallbacks := st.eff.rejectCallbacks ++ [c.type.id] } }
        else st)).raw = st.raw := by
  by_cases h1 : c.newState.truthy = true
  · by_cases h2 : c.type.onAccept = true
    · simp only [h1, h2, if_true]
      exact raw_injectConsentScripts st c.type
    · simp only [h1, h2, if_true, Bool.false_eq_true, if_false]
      exact raw_injectConsentScripts st c.type
  · by_cases h2 : c.type.onReject = true
    · simp only [h1, h2, if_true, Bool.false_eq_true, if_false]
    · simp only [h1, h2, Bool.false_eq_true, if_false]

theorem raw_batchCallbacks : ∀ (cs : List Change) (st : St),
    (batchCallbacks st cs).raw = st.raw := by
  intro cs
  induction cs with
  | nil => intro st; rfl
  | cons c cs ih =>
    intro st
    show (List.foldl _ st (c :: cs)).raw = st.raw
    rw [List.foldl_cons]
    exact (ih _).trans (raw_callbackStep st c)

/-! ### The successful-change run of `batchUpdateConsents` -/

theorem batch_success_eq (env : Env) (st : St) (m : ReqMap)
    (hhc : (batchFirstPass env st m).hasChanges = true)
    (hok : (batchPersist env (batchFirstPass env st m).st
             (batchFirstPass env st m).changes).2 = Except.ok ()) :
    batchUpdateConsents env st m = (batchSuccessState env st m, Except.ok true) := by
  unfold batchUpdateConsents batchSuccessState
  rcases hp : batchPersist env (batchFirstPass env st m).st (batchFirstPass env st m).changes
    with ⟨st1, r1⟩
  rw [hp] at hok
  simp only at hok
  subst hok
  simp [hhc, hp]

theorem batch_success_fields (env : Env) (st : St) (m : ReqMap) :
    (batchSuccessState env st m).eff.dataLayerPushes =
      st.eff.dataLayerPushes ++ [env.eventName] ∧
    (batchSuccessState env st m).eff.reloadsScheduled =
      st.eff.reloadsScheduled +
        (if (batchFirstPass env st m).needsReload then 1 else 0) ∧
    (batchSuccessState env st m).eff.gtagCalls =
      (batchIntegration env
        (batchPersist env (batchFirstPass env st m).st (batchFirstPass env st m).changes).1
        (batchFirstPass env st m).gtagUpdate).eff.gtagCalls ∧
    (batchPersist env (batchFirstPass env st m).st
        (batchFirstPass env st m).changes).1.eff.gtagCalls = st.eff.gtagCalls ∧
    (batchSuccessState env st m).raw =
      (batchPersist env (batchFirstPass env st m).st
        (batchFirstPass env st m).changes).1.raw := by
  have eAcc : Ext (batchFirstPass env st m).st st :=
    ext_foldl_batchStep env m env.consentTypes ⟨st, [], [], false, false⟩
  have eP : Ext (batchPersist env (batchFirstPass env st m).st
      (batchFirstPass env st m).changes).1 (batchFirstPass env st m).st :=
    ext_batchPersist env _ _
  set p1 := (batchPersist env (batchFirstPass env st m).st
    (batchFirstPass env st m).changes).1 with hp1
  set st2 := batchIntegration env p1 (batchFirstPass env st m).gtagUpdate with hst2
  set st3 := pushEvent env st2 with hst3
  set st4 := batchCallbacks st3 (batchFirstPass env st m).changes with hst4
  have e4 : Ext st4 st3 := ext_batchCallbacks _ st3
  have hfin : batchSuccessState env st m =
      (if (batchFirstPass env st m).needsReload then scheduleReload st4 else st4) := rfl
  refine ⟨?_, ?_, ?_, ?_, ?_⟩
  · rw [hfin]
    have h4 : st4.eff.dataLayerPushes = st.eff.dataLayerPushes ++ [env.eventName] := by
      rw [e4.2.1, hst3, pushEvent_dlp, hst2, batchIntegration_dlp, eP.2.1, eAcc.2.1]
    cases hr : (batchFirstPass env st m).needsReload with
    | false => simpa [hr] using h4
    | true => simp only [hr, if_true]; rw [scheduleReload_dlp]; exact h4
  · rw [hfin]
    have h4 : st4.eff.reloadsScheduled = st.eff.reloadsScheduled := by
      rw [e4.2.2, hst3, pushEvent_reloads, hst2, batchIntegration_reloads, eP.2.2, eAcc.2.2]
    cases hr : (batchFirstPass env st m).needsReload with
    | false => simpa [hr] using h4
    | true => simp only [hr, if_true]; rw [scheduleReload_reloads, h4]
  · rw [hfin]
    have h4 : st4.eff.gtagCalls = st2.eff.gtagCalls := by
      rw [e4.1, hst3, pushEvent_gtag]
    cases hr : (batchFirstPass env st m).needsReload with
    | false => simpa [hr] using h4
    | true => simp only [hr, if_true]; rw [scheduleReload_gtag]; exact h4
  · rw [eP.1, eAcc.1]
  · rw [hfin]
    have h4 : st4.raw = p1.raw := by
      rw [raw_batchCallbacks, hst3, raw_pushEvent, hst2, raw_batchIntegration]
    cases hr : (batchFirstPass env st m).needsReload with
    | false => simpa [hr] using h4
    | true => simp only [hr, if_true]; rw [raw_scheduleReload]; exact h4

/-- With a requested map supplying a boolean for every configured id,
every accumulated change carries a boolean new state. -/
theorem batchFirstPass_changes_bool (env : Env) (st : St) (m : ReqMap)
    (wf : ∀ t ∈ env.consentTypes, (m t.id).isSome) :
    ∀ c ∈ (batchFirstPass env st m).changes, ∃ b, c.newState = JSVal.bool b := by
  intro c hc
  have hshape := foldl_batchStep_changes_shape env m env.consentTypes
    ⟨st, [], [], false, false⟩ c hc
  rcases hshape with h | ⟨htt, heq⟩
  · simp at h
  · obtain ⟨b, hmb⟩ := Option.isSome_iff_exists.mp (wf c.type htt)
    exact ⟨b, by rw [heq]; simp [reqJS, hmb]⟩

theorem batchFirstPass_persist_ok (env : Env) (st : St) (m : ReqMap)
    (wf : ∀ t ∈ env.consentTypes, (m t.id).isSome) :
    (batchPersist env (batchFirstPass env st m).st
      (batchFirstPass env st m).changes).2 = Except.ok () :=
  batchPersist_ok env _ _ (batchFirstPass_changes_bool env st m wf)

/-- Counterexample to C5 as stated: a change on a category with no
configured signal identifiers produces an empty integration payload,
yet the generic event is still pushed. -/
theorem push_fires_without_payload_entries :
    (batchUpdateConsents (mkEnv [catPlain] true) (mkSt [])
       (fun id => if id = "a" then some true else none)).2 = Except.ok true ∧
    (batchUpdateConsents (mkEnv [catPlain] true) (mkSt [])
       (fun id => if id = "a" then some true else none)).1.eff.gtagCalls = [] ∧
    (batchUpdateConsents (mkEnv [catPlain] true) (mkSt [])
       (fun id => if id = "a" then some true else none)).1.eff.dataLayerPushes =
      ["stcm_consent_update"] :=
  ⟨rfl, rfl, rfl⟩

/-- Claim C5 (amended): in every `batchUpdateConsents` call that detects
at least one changed category (with a well-formed requested map), exactly
one generic consent-updated event is pushed to the dataLayer —
unconditionally, whether or not any integration payload entry was
produced. -/
theorem batch_changed_pushes_one_event (env : Env) (st : St) (m : ReqMap)
    (wf : ∀ t ∈ env.consentTypes, (m t.id).isSome)
    (hhc : (batchFirstPass env st m).hasChanges = true) :
    (batchUpdateConsents env st m).2 = Except.ok true ∧
    (batchUpdateConsents env st m).1.eff.dataLayerPushes =
      st.eff.dataLayerPushes ++ [env.eventName] := by
  have hok := batchFirstPass_persist_ok env st m wf
  have heq := batch_success_eq env st m hhc hok
  rw [heq]
  exact ⟨rfl, (batch_success_fields env st m).1⟩

/-- Witness for the amended C5 at a concrete one-category change. -/
theorem batch_changed_pushes_one_event_witness :
    (batchUpdateConsents (mkEnv [catPlain] true) (mkSt [])
       (fun id => if id = "a" then some true else none)).2 = Except.ok true ∧
    (batchUpdateConsents (mkEnv [catPlain] true) (mkSt [])
       (fun id => if id = "a" then some true else none)).1.eff.dataLayerPushes =
      (mkSt []).eff.dataLayerPushes ++ [(mkEnv [catPlain] true).eventName] :=
  batch_changed_pushes_one_event (mkEnv [catPlain] true) (mkSt [])
    (fun id => if id = "a" then some true else none)
    (by intro t ht; rcases List.mem_singleton.mp ht with rfl; rfl)
    rfl

/-- Counterexample to C8 as stated: a requested map omitting a configured
category id makes `batchUpdateConsents` throw (JavaScript
`undefined.toString()` TypeError escaping to the caller). -/
theorem omitted_id_throws :
    (batchUpdateConsents (mkEnv [catPlain] false) (mkSt []) (fun _ => none)).2 =
      Except.error () :=
  rfl

/-- Claim C8 (amended): provided the requested map supplies a boolean for
every configured category id, no internal error escapes
`batchUpdateConsents`; configuration validation rejects an empty category
list and accepts any non-empty one. -/
theorem batch_wellformed_no_throw (env : Env) (st : St) (m : ReqMap)
    (wf : ∀ t ∈ env.consentTypes, (m t.id).isSome) :
    (∃ b, (batchUpdateConsents env st m).2 = Except.ok b) ∧
    _validateConfig [] =
      Except.error "Silktide Consent Manager: config.consentTypes cannot be empty" ∧
    (env.consentTypes ≠ [] → _validateConfig env.consentTypes = Except.ok ()) := by
  refine ⟨?_, rfl, ?_⟩
  · cases hhc : (batchFirstPass env st m).hasChanges with
    | false =>
      refine ⟨false, ?_⟩
      unfold batchUpdateConsents
      simp [hhc]
    | true =>
      exact ⟨true, by
        rw [batch_success_eq env st m hhc (batchFirstPass_persist_ok env st m wf)]⟩
  · intro hne
    simp [_validateConfig, List.length_eq_zero, hne]

/-- Witness for the amended C8 at a concrete well-formed map. -/
theorem batch_wellformed_no_throw_witness :
    (∃ b, (batchUpdateConsents (mkEnv [catPlain] false) (mkSt [])
            (fun id => if id = "a" then some true else none)).2 = Except.ok b) ∧
    _validateConfig [] =
      Except.error "Silktide Consent Manager: config.consentTypes cannot be empty" ∧
    ((mkEnv [catPlain] false).consentTypes ≠ [] →
      _validateConfig (mkEnv [catPlain] false).consentTypes = Except.ok ()) :=
  batch_wellformed_no_throw (mkEnv [catPlain] false) (mkSt [])
    (fun id => if id = "a" then some true else none)
    (by intro t ht; rcases List.mem_singleton.mp ht with rfl; rfl)

/-- Counterexample to C2 as stated: two changed categories sharing the
signal identifier `x`, one granted and one denied, still yield a single
call — but its payload maps `x` to the *last* writer's state
(`"denied"`), not to each changed category's own boolean (`a` changed to
`true`, so C2 would require `x ↦ "granted"` for it as well). -/
theorem shared_identifier_last_writer_wins :
    (batchUpdateConsents (mkEnv [catSigA, catSigB] true) (mkSt [])
       (fun id => if id = "a" then some true else
                  if id = "b" then some false else none)).2 = Except.ok true ∧
    (batchUpdateConsents (mkEnv [catSigA, catSigB] true) (mkSt [])
       (fun id => if id = "a" then some true else
                  if id = "b" then some false else none)).1.eff.gtagCalls =
      [[("x", "denied")]] ∧
    changedCatB (mkEnv [catSigA, catSigB] true) (mkSt []).raw.data
      (fun id => if id = "a" then some true else
                 if id = "b" then some false else none) catSigA = true :=
  ⟨rfl, rfl, rfl⟩

/-- Claim C2 (amended): when two or more categories with configured,
pairwise-disjoint signal identifiers change in one batch (healthy
storage, no legacy keys, well-formed map, `gtag` present), exactly one
consolidated integration call is delivered, and its payload maps every
changed category's identifiers to `"granted"`/`"denied"` per that
category's new boolean.  (Identifiers shared between distinct categories
take the last writer's value, which is what the counterexample forces
the disjointness proviso for.) -/
theorem batch_single_integration_call (env : Env) (st : St) (m : ReqMap)
    (hA : env.localStorageAvailable = true) (hT : NoThrows st.raw)
    (hold : ∀ t ∈ env.consentTypes,
      objGet (_buildOldConsentKey env t.id) st.raw.data = none)
    (hnd : (env.consentTypes.map ConsentType.id).Nodup)
    (wf : ∀ t ∈ env.consentTypes, (m t.id).isSome)
    (hdisj : ∀ t1 ∈ env.consentTypes, ∀ t2 ∈ env.consentTypes, t1.id ≠ t2.id →
      ∀ p ∈ t1.gtag.params, p ∉ t2.gtag.params)
    (hg : env.gtagDefined = true)
    (t1 t2 : ConsentType) (ht1 : t1 ∈ env.consentTypes) (ht2 : t2 ∈ env.consentTypes)
    (hne12 : t1.id ≠ t2.id)
    (hc1 : changedCatB env st.raw.data m t1 = true)
    (hc2 : changedCatB env st.raw.data m t2 = true)
    (hg1 : t1.gtag.truthy = true) (hg2 : t2.gtag.truthy = true)
    (hp1 : t1.gtag.params ≠ []) :
    (batchUpdateConsents env st m).1.eff.gtagCalls =
      st.eff.gtagCalls ++ [(batchFirstPass env st m).gtagUpdate] ∧
    (∀ t ∈ env.consentTypes, changedCatB env st.raw.data m t = true →
      t.gtag.truthy = true → ∀ p ∈ t.gtag.params, ∀ b, m t.id = some b →
      objGet p (batchFirstPass env st m).gtagUpdate =
        some (if b then "granted" else "denied")) := by
  have hpure := batchFirstPass_healthy env st m hA hT hold
  have hpayload : ∀ t ∈ env.consentTypes, changedCatB env st.raw.data m t = true →
      t.gtag.truthy = true → ∀ p ∈ t.gtag.params, ∀ b, m t.id = some b →
      objGet p (batchFirstPass env st m).gtagUpdate =
        some (if b then "granted" else "denied") := by
    intro t ht hc hg' p hp b hmb
    rw [hpure]
    have hother : ∀ t' ∈ env.consentTypes, t' ≠ t →
        changedCatB env st.raw.data m t' = true → t'.gtag.truthy = true →
        p ∉ t'.gtag.params := by
      intro t' ht' hne' _ _
      by_cases hid : t'.id = t.id
      · exact absurd (List.inj_on_of_nodup_map hnd ht' ht hid) hne'
      · exact hdisj t ht t' ht' (fun h => hid h.symm) p hp
    rw [foldl_payload_mem env st.raw.data m p env.consentTypes
          ⟨st, [], [], false, false⟩ t ht hc hg' hp hother]
    simp [reqJS, hmb, JSVal.truthy]
  have hne_payload : (batchFirstPass env st m).gtagUpdate ≠ [] := by
    intro hnil
    obtain ⟨p0, hp0⟩ := List.exists_mem_of_ne_nil t1.gtag.params hp1
    obtain ⟨b1, hmb1⟩ := Option.isSome_iff_exists.mp (wf t1 ht1)
    have := hpayload t1 ht1 hc1 hg1 p0 hp0 b1 hmb1
    rw [hnil] at this
    simp [objGet] at this
  have hhc : (batchFirstPass env st m).hasChanges = true := by
    rw [hpure, foldl_pureStep_hasChanges]
    simp only [Bool.false_or, List.any_eq_true]
    exact ⟨t1, ht1, hc1⟩
  have hok := batchFirstPass_persist_ok env st m wf
  refine ⟨?_, hpayload⟩
  rw [batch_success_eq env st m hhc hok]
  obtain ⟨_, _, hgtag, hpg, _⟩ := batch_success_fields env st m
  rw [hgtag, batchIntegration_call env _ _ hne_payload hg]
  show (batchPersist env (batchFirstPass env st m).st
      (batchFirstPass env st m).changes).1.eff.gtagCalls ++
        [(batchFirstPass env st m).gtagUpdate] =
    st.eff.gtagCalls ++ [(batchFirstPass env st m).gtagUpdate]
  rw [hpg]

/-- Witness for the amended C2: categories `a` (signal `x`, granted) and
`b` (signal `y`, denied) changing together. -/
theorem batch_single_integration_call_witness :
    (batchUpdateConsents (mkEnv [catSigA, catSigY] true) (mkSt [])
       (fun id => if id = "a" then some true else
                  if id = "b" then some false else none)).1.eff.gtagCalls =
      (mkSt []).eff.gtagCalls ++
        [(batchFirstPass (mkEnv [catSigA, catSigY] true) (mkSt [])
           (fun id => if id = "a" then some true else
                      if id = "b" then some false else none)).gtagUpdate] ∧
    (∀ t ∈ (mkEnv [catSigA, catSigY] true).consentTypes,
      changedCatB (mkEnv [catSigA, catSigY] true) (mkSt []).raw.data
        (fun id => if id = "a" then some true else
                   if id = "b" then some false else none) t = true →
      t.gtag.truthy = true → ∀ p ∈ t.gtag.params,
      ∀ b, (fun id => if id = "a" then some true else
                      if id = "b" then some false else none) t.id = some b →
      objGet p (batchFirstPass (mkEnv [catSigA, catSigY] true) (mkSt [])
          (fun id => if id = "a" then some true else
                     if id = "b" then some false else none)).gtagUpdate =
        some (if b then "granted" else "denied")) :=
  batch_single_integration_call (mkEnv [catSigA, catSigY] true) (mkSt [])
    (fun id => if id = "a" then some true else
               if id = "b" then some false else none)
    rfl ⟨fun _ => rfl, fun _ _ => rfl, fun _ => rfl⟩
    (by
      intro t ht
      rcases List.mem_cons.mp ht with rfl | ht
      · rfl
      · rcases List.mem_singleton.mp ht with rfl
        rfl)
    (by decide)
    (by
      intro t ht
      rcases List.mem_cons.mp ht with rfl | ht
      · rfl
      · rcases List.mem_singleton.mp ht with rfl
        rfl)
    (by decide)
    rfl catSigA catSigY (by decide) (by decide) (by decide)
    rfl rfl rfl rfl (by decide)

/-! ### The reload flag is set only by a revoke-with-scripts change -/

theorem batchStep_needsReload (env : Env) (m : ReqMap) (acc : BatchAcc) (t : ConsentType) :
    (batchStep env m acc t).needsReload =
      (acc.needsReload ||
        (decide (reqJS m t.id ≠ prevJS (getConsentChoice env acc.st t.id).2) &&
         (((getConsentChoice env acc.st t.id).2 == some true) &&
          (reqJS m t.id == JSVal.bool false)) && hadScriptsB t)) := by
  by_cases hc : reqJS m t.id ≠ prevJS (getConsentChoice env acc.st t.id).2
  · simp [batchStep, hc]
  · simp [batchStep, hc]

theorem foldl_batchStep_changes_mono (env : Env) (m : ReqMap) :
    ∀ (l : List ConsentType) (acc : BatchAcc),
      acc.changes <+: (List.foldl (batchStep env m) acc l).changes := by
  intro l
  induction l with
  | nil => intro acc; exact List.prefix_refl _
  | cons t l ih =>
    intro acc
    rw [List.foldl_cons]
    have h1 : acc.changes <+: (batchStep env m acc t).changes := by
      rw [batchStep_changes]
      exact List.prefix_append _ _
    exact h1.trans (ih _)

theorem foldl_batchStep_needsReload_sound (env : Env) (m : ReqMap) :
    ∀ (l : List ConsentType) (acc : BatchAcc),
      (List.foldl (batchStep env m) acc l).needsReload = true →
      acc.needsReload = true ∨
      ∃ c ∈ (List.foldl (batchStep env m) acc l).changes,
        c.previousState = some true ∧ c.newState = JSVal.bool false ∧
        hadScriptsB c.type = true := by
  intro l
  induction l with
  | nil => intro acc h; exact Or.inl h
  | cons t l ih =>
    intro acc h
    rw [List.foldl_cons] at h ⊢
    rcases ih _ h with h1 | h1
    · rw [batchStep_needsReload] at h1
      rcases Bool.or_eq_true_iff.mp h1 with h2 | h2
      · exact Or.inl h2
      · simp only [Bool.and_eq_true, decide_eq_true_eq, beq_iff_eq] at h2
        obtain ⟨⟨hne, hprev, hreq⟩, hhad⟩ := h2
        refine Or.inr ⟨⟨t, reqJS m t.id, (getConsentChoice env acc.st t.id).2⟩, ?_, hprev, hreq, hhad⟩
        apply (foldl_batchStep_changes_mono env m l (batchStep env m acc t)).subset
        rw [batchStep_changes, if_pos hne]
        exact List.mem_append_right _ (List.mem_singleton.mpr rfl)
    · exact Or.inr h1

/-- Whenever a `batchUpdateConsents` call changes the count of scheduled
reloads, some accumulated change was a Granted-to-Denied transition of a
script-bearing category. -/
theorem batch_reload_only_if (env : Env) (st : St) (m : ReqMap)
    (h : (batchUpdateConsents env st m).1.eff.reloadsScheduled ≠
      st.eff.reloadsScheduled) :
    ∃ c ∈ (batchFirstPass env st m).changes,
      c.previousState = some true ∧ c.newState = JSVal.bool false ∧
      hadScriptsB c.type = true := by
  have eAcc : Ext (batchFirstPass env st m).st st :=
    ext_foldl_batchStep env m env.consentTypes ⟨st, [], [], false, false⟩
  by_cases hhc : (batchFirstPass env st m).hasChanges = false
  · exfalso
    apply h
    have heq : batchUpdateConsents env st m = ((batchFirstPass env st m).st, .ok false) := by
      unfold batchUpdateConsents
      simp [hhc]
    rw [heq]
    exact eAcc.2.2
  · have hhc' : (batchFirstPass env st m).hasChanges = true := by
      simpa using hhc
    rcases hp : batchPersist env (batchFirstPass env st m).st (batchFirstPass env st m).changes
      with ⟨st1, r1⟩
    have eP : Ext st1 (batchFirstPass env st m).st := by
      have := ext_batchPersist env (batchFirstPass env st m).changes (batchFirstPass env st m).st
      rw [hp] at this
      exact this
    cases r1 with
    | error e =>
      exfalso
      apply h
      have heq : batchUpdateConsents env st m = (st1, .error ()) := by
        unfold batchUpdateConsents
        simp [hhc', hp]
      rw [heq]
      exact eP.2.2.trans eAcc.2.2
    | ok u =>
      have hsucc := batch_success_eq env st m hhc' (by rw [hp])
      obtain ⟨_, hrel, _, _, _⟩ := batch_success_fields env st m
      rw [hsucc] at h
      simp only at h
      cases hnr : (batchFirstPass env st m).needsReload with
      | false =>
        exfalso
        apply h
        rw [hrel, hnr]
        simp
      | true =>
        have hsound := foldl_batchStep_needsReload_sound env m env.consentTypes
          ⟨st, [], [], false, false⟩ hnr
        rcases hsound with h1 | h1
        · simp at h1
        · exact h1

theorem foldl_objSet_changes_eq (env : Env) :
    ∀ (l : List Change) (data : List (String × String)),
      l.foldl (fun d c => objSet (_buildConsentKey env c.type.id) (jsvalStr c.newState) d)
          data =
        (l.map (fun c => (_buildConsentKey env c.type.id, jsvalStr c.newState))).foldl
          (fun d p => objSet p.1 p.2 d) data := by
  intro l
  induction l with
  | nil => intro data; rfl
  | cons c l ih =>
    intro data
    rw [List.foldl_cons, List.map_cons, List.foldl_cons]
    exact ih _

/-- After a successful changed batch (healthy storage, no legacy keys,
nodup ids, well-formed map), every configured category's stored choice
equals the requested map, so running the very same batch again is a
complete no-op. -/
theorem batch_second_call_noop (env : Env) (st : St) (m : ReqMap)
    (hA : env.localStorageAvailable = true) (hT : NoThrows st.raw)
    (hold : ∀ t ∈ env.consentTypes,
      objGet (_buildOldConsentKey env t.id) st.raw.data = none)
    (hnd : (env.consentTypes.map ConsentType.id).Nodup)
    (wf : ∀ t ∈ env.consentTypes, (m t.id).isSome) :
    batchUpdateConsents env (batchSuccessState env st m) m =
      (batchSuccessState env st m, Except.ok false) := by
  have hpure := batchFirstPass_healthy env st m hA hT hold
  have hst : (batchFirstPass env st m).st = st := by rw [hpure, foldl_pureStep_st]
  have hchanges : (batchFirstPass env st m).changes =
      (env.consentTypes.filter (changedCatB env st.raw.data m)).map
        (mkChange env st.raw.data m) := by
    rw [hpure, foldl_pureStep_changes]
    simp
  have hb := batchFirstPass_changes_bool env st m wf
  have holdc : ∀ c ∈ (batchFirstPass env st m).changes,
      objGet (_buildOldConsentKey env c.type.id) st.raw.data = none := by
    intro c hc
    rw [hchanges] at hc
    obtain ⟨t, htf, rfl⟩ := List.mem_map.mp hc
    exact hold t (List.mem_of_mem_filter htf)
  obtain ⟨hok, hdata, hT1⟩ := batchPersist_healthy env (batchFirstPass env st m).changes st
    hA hT hb holdc
  have hps : batchPersist env (batchFirstPass env st m).st (batchFirstPass env st m).changes
      = batchPersist env st (batchFirstPass env st m).changes := by rw [hst]
  obtain ⟨_, _, _, _, hraw⟩ := batch_success_fields env st m
  rw [hps] at hraw
  have hdata2 : (batchSuccessState env st m).raw.data =
      ((batchFirstPass env st m).changes.map
        (fun c => (_buildConsentKey env c.type.id, jsvalStr c.newState))).foldl
        (fun d p => objSet p.1 p.2 d) st.raw.data := by
    rw [hraw, hdata, foldl_objSet_changes_eq env]
  have hT2 : NoThrows (batchSuccessState env st m).raw := by
    rw [hraw]
    exact hT1
  have hinj : Function.Injective (_buildConsentKey env) := fun a b h => consentKey_inj env h
  have hfilter_ids :
      ((env.consentTypes.filter (changedCatB env st.raw.data m)).map ConsentType.id).Nodup :=
    hnd.sublist (List.Sublist.map ConsentType.id (List.filter_sublist _))
  have hndk : (((batchFirstPass env st m).changes.map
      (fun c => (_buildConsentKey env c.type.id, jsvalStr c.newState))).map Prod.fst).Nodup := by
    rw [hchanges]
    simp only [List.map_map]
    have hcomp : (Prod.fst ∘
        ((fun c : Change => (_buildConsentKey env c.type.id, jsvalStr c.newState)) ∘
          mkChange env st.raw.data m))
        = (_buildConsentKey env) ∘ ConsentType.id := rfl
    rw [hcomp, ← List.map_map]
    exact hfilter_ids.map hinj
  have hold1 : ∀ t ∈ env.consentTypes,
      objGet (_buildOldConsentKey env t.id) (batchSuccessState env st m).raw.data = none := by
    intro t ht
    rw [hdata2, objGet_foldl_objSet_notMem]
    · exact hold t ht
    · intro pw hpw
      obtain ⟨c, _, rfl⟩ := List.mem_map.mp hpw
      exact fun hh => consentKey_ne_oldConsentKey env c.type.id t.id hh
  have hmatch1 : ∀ t ∈ env.consentTypes,
      ∃ b, m t.id = some b ∧
        storedChoice env (batchSuccessState env st m).raw.data t.id = some b := by
    intro t ht
    obtain ⟨b, hmb⟩ := Option.isSome_iff_exists.mp (wf t ht)
    refine ⟨b, hmb, ?_⟩
    show (objGet (_buildConsentKey env t.id) (batchSuccessState env st m).raw.data).map
        (fun v => v == "true") = some b
    rw [hdata2]
    by_cases hct : changedCatB env st.raw.data m t = true
    · have hmemc : mkChange env st.raw.data m t ∈ (batchFirstPass env st m).changes := by
        rw [hchanges]
        exact List.mem_map.mpr ⟨t, List.mem_filter.mpr ⟨ht, hct⟩, rfl⟩
      have hmemw : (_buildConsentKey env t.id, jsvalStr (reqJS m t.id)) ∈
          (batchFirstPass env st m).changes.map
            (fun c => (_buildConsentKey env c.type.id, jsvalStr c.newState)) :=
        List.mem_map.mpr ⟨mkChange env st.raw.data m t, hmemc, rfl⟩
      rw [objGet_foldl_objSet_mem _ _ _ _ hndk hmemw]
      cases b with
      | true => simp [reqJS, hmb, jsvalStr]
      | false => simp [reqJS, hmb, jsvalStr]
    · have hct' : changedCatB env st.raw.data m t = false := by simpa using hct
      rw [objGet_foldl_objSet_notMem]
      · have heq : reqJS m t.id = prevJS (storedChoice env st.raw.data t.id) := by
          by_contra hx
          rw [(changedCatB_iff env st.raw.data m t).mpr hx] at hct'
          simp at hct'
        have hbool : JSVal.bool b = prevJS (storedChoice env st.raw.data t.id) := by
          rw [← heq]
          simp [reqJS, hmb]
        cases hsc : storedChoice env st.raw.data t.id with
        | none =>
          rw [hsc] at hbool
          simp [prevJS] at hbool
        | some x =>
          rw [hsc] at hbool
          simp only [prevJS, JSVal.bool.injEq] at hbool
          show storedChoice env st.raw.data t.id = some b
          rw [hsc, hbool]
      · intro pw hpw hkey
        obtain ⟨c, hcmem, rfl⟩ := List.mem_map.mp hpw
        have hid : c.type.id = t.id := consentKey_inj env hkey
        rw [hchanges] at hcmem
        obtain ⟨u, huf, hu⟩ := List.mem_map.mp hcmem
        have huid : u.id = t.id := by
          rw [← hid, ← hu]
          rfl
        have hut : u = t :=
          List.inj_on_of_nodup_map hnd (List.mem_of_mem_filter huf) ht huid
        have hchg : changedCatB env st.raw.data m u = true := (List.mem_filter.mp huf).2
        rw [hut] at hchg
        exact absurd hchg (by simp [hct'])
  apply batch_noop env (batchSuccessState env st m) m hA hT2 hold1
  intro t ht
  obtain ⟨b, hm2, hs2⟩ := hmatch1 t ht
  simp [changedCatB, reqJS, hm2, prevJS, hs2]

/-- Claim C6: a category with at least one gated script, stored Granted
and requested `false`, makes the batch set the (transient) reload flag
and schedule exactly one deferred reload; running the identical batch
again on the resulting state detects no change and schedules none; and
in any call whatsoever, the scheduled-reload count moves only when some
accumulated change was a Granted-to-Denied transition of a
script-bearing category. -/
theorem revoke_schedules_one_reload (env : Env) (st : St) (m : ReqMap)
    (hA : env.localStorageAvailable = true) (hT : NoThrows st.raw)
    (hold : ∀ t ∈ env.consentTypes,
      objGet (_buildOldConsentKey env t.id) st.raw.data = none)
    (hnd : (env.consentTypes.map ConsentType.id).Nodup)
    (wf : ∀ t ∈ env.consentTypes, (m t.id).isSome)
    (t0 : ConsentType) (ht0 : t0 ∈ env.consentTypes)
    (hscript : hadScriptsB t0 = true)
    (hstored : storedChoice env st.raw.data t0.id = some true)
    (hreq : m t0.id = some false) :
    (batchFirstPass env st m).needsReload = true ∧
    (batchUpdateConsents env st m).2 = Except.ok true ∧
    (batchUpdateConsents env st m).1.eff.reloadsScheduled =
      st.eff.reloadsScheduled + 1 ∧
    batchUpdateConsents env (batchUpdateConsents env st m).1 m =
      ((batchUpdateConsents env st m).1, Except.ok false) ∧
    (∀ (env' : Env) (st' : St) (m' : ReqMap),
      (batchUpdateConsents env' st' m').1.eff.reloadsScheduled ≠
        st'.eff.reloadsScheduled →
      ∃ c ∈ (batchFirstPass env' st' m').changes,
        c.previousState = some true ∧ c.newState = JSVal.bool false ∧
        hadScriptsB c.type = true) := by
  have hpure := batchFirstPass_healthy env st m hA hT hold
  have hchanged0 : changedCatB env st.raw.data m t0 = true := by
    simp [changedCatB, reqJS, hreq, prevJS, hstored]
  have hrev0 : revokedCatB env st.raw.data m t0 = true := by
    simp [revokedCatB, hstored, reqJS, hreq]
  have hnr : (batchFirstPass env st m).needsReload = true := by
    rw [hpure, foldl_pureStep_needsReload]
    simp only [Bool.false_or, List.any_eq_true]
    exact ⟨t0, ht0, by simp [hchanged0, hrev0, hscript]⟩
  have hhc : (batchFirstPass env st m).hasChanges = true := by
    rw [hpure, foldl_pureStep_hasChanges]
    simp only [Bool.false_or, List.any_eq_true]
    exact ⟨t0, ht0, hchanged0⟩
  have hok := batchFirstPass_persist_ok env st m wf
  have hsucc := batch_success_eq env st m hhc hok
  obtain ⟨_, hrel, _, _, _⟩ := batch_success_fields env st m
  refine ⟨hnr, ?_, ?_, ?_, ?_⟩
  · rw [hsucc]
  · rw [hsucc]
    show (batchSuccessState env st m).eff.reloadsScheduled = st.eff.reloadsScheduled + 1
    rw [hrel, hnr]
    simp
  · rw [hsucc]
    show batchUpdateConsents env (batchSuccessState env st m) m =
      (batchSuccessState env st m, Except.ok false)
    exact batch_second_call_noop env st m hA hT hold hnd wf
  · intro env' st' m' h
    exact batch_reload_only_if env' st' m' h

/-- Witness for C6: one script-gated category, previously granted,
revoked by the batch. -/
theorem revoke_schedules_one_reload_witness :
    (batchFirstPass (mkEnv [catScripted] false) (mkSt [("stcm.consent.a", "true")])
       (fun id => if id = "a" then some false else none)).needsReload = true ∧
    (batchUpdateConsents (mkEnv [catScripted] false) (mkSt [("stcm.consent.a", "true")])
       (fun id => if id = "a" then some false else none)).2 = Except.ok true ∧
    (batchUpdateConsents (mkEnv [catScripted] false) (mkSt [("stcm.consent.a", "true")])
       (fun id => if id = "a" then some false else none)).1.eff.reloadsScheduled =
      (mkSt [("stcm.consent.a", "true")]).eff.reloadsScheduled + 1 ∧
    batchUpdateConsents (mkEnv [catScripted] false)
        (batchUpdateConsents (mkEnv [catScripted] false)
           (mkSt [("stcm.consent.a", "true")])
           (fun id => if id = "a" then some false else none)).1
        (fun id => if id = "a" then some false else none) =
      ((batchUpdateConsents (mkEnv [catScripted] false)
          (mkSt [("stcm.consent.a", "true")])
          (fun id => if id = "a" then some false else none)).1, Except.ok false) ∧
    (∀ (env' : Env) (st' : St) (m' : ReqMap),
      (batchUpdateConsents env' st' m').1.eff.reloadsScheduled ≠
        st'.eff.reloadsScheduled →
      ∃ c ∈ (batchFirstPass env' st' m').changes,
        c.previousState = some true ∧ c.newState = JSVal.bool false ∧
        hadScriptsB c.type = true) :=
  revoke_schedules_one_reload (mkEnv [catScripted] false)
    (mkSt [("stcm.consent.a", "true")])
    (fun id => if id = "a" then some false else none)
    rfl ⟨fun _ => rfl, fun _ _ => rfl, fun _ => rfl⟩
    (by intro t ht; rcases List.mem_singleton.mp ht with rfl; rfl)
    (by decide)
    (by intro t ht; rcases List.mem_singleton.mp ht with rfl; rfl)
    catScripted (List.mem_singleton.mpr rfl) (by decide) rfl rfl

end Stcm
